import Mathlib

/-! # pinyin-chat: the chat relay (`server.js`, `api/chat.js`)

A shallow embedding of the proxy core of the repository: the endpoint resolver
`getDeepSeekChatCompletionsEndpoint`, the `.env` reader `parseDotEnv` with `loadConfig`,
and the two chat handlers (`handleApiChat` of `server.js` and the exported handler of
`api/chat.js`).

JavaScript strings are embedded as Lean strings (sequences of Unicode scalar values).
Platform services the code calls (`new URL`, `JSON.parse`, `JSON.stringify`, `fetch`) are
not part of the repository; each is represented as described where it is introduced.
-/

namespace PinyinChat

/-! ## String primitives used by the source -/

/-- JavaScript `s.startsWith(p)`. -/
def startsWith (s p : String) : Bool := p.data.isPrefixOf s.data

/-- JavaScript `s.endsWith(p)`. -/
def endsWith (s p : String) : Bool := p.data.isSuffixOf s.data

/-- JavaScript `s.includes(p)`: `p` occurs as a contiguous block of `s`. -/
def includes (s p : String) : Bool := s.data.tails.any (fun t => p.data.isPrefixOf t)

/-- JavaScript `s.replace(/\/+$/, "")` on characters: the trailing run of slashes is removed. -/
def stripTrailingSlashesL (l : List Char) : List Char :=
  (l.reverse.dropWhile (fun c => c == '/')).reverse

/-- JavaScript `s.replace(/\/+$/, "")`. -/
def stripTrailingSlashes (s : String) : String := ⟨stripTrailingSlashesL s.data⟩

/-- JavaScript `s.replace(/\/{2,}/g, "/")` on characters: every run of two or more slashes becomes
one slash. -/
def collapseSlashesL : List Char → List Char
  | [] => []
  | [c] => [c]
  | c :: d :: rest =>
    if c == '/' && d == '/' then collapseSlashesL (d :: rest)
    else c :: collapseSlashesL (d :: rest)

/-- JavaScript `s.replace(/\/{2,}/g, "/")`. -/
def collapseSlashes (s : String) : String := ⟨collapseSlashesL s.data⟩

/-! ## The platform `URL` class

`new URL(text)`, `u.pathname`, `u.pathname = p` and `u.toString()` are platform code
(the WHATWG URL class), not code of this repository. The resolver and the handlers take
the platform as a parameter and work for every platform; nothing below says which texts
the platform of a deployment accepts. -/

/-- The platform's `URL` class, as far as the source uses it. -/
structure UrlPlatform where
  -- the state of a `URL` object
  Rec : Type
  -- `new URL(text)`; `none` is the thrown `TypeError`
  parse : String → Option Rec
  -- `u.toString()`
  href : Rec → String
  -- `u.pathname`
  pathname : Rec → String
  -- the state after `u.pathname = p`
  setPathname : Rec → String → Rec

/-- Two laws of the URL class. `roundTrip`: the serialisation of a URL object parses back
to that object. `assignKeepsSuffix`: after `u.pathname = p` with `p` ending in
`/chat/completions`, the path still ends in `/chat/completions` (the class may normalise
`p`, but it keeps its last two segments), unless the object ignores the assignment (a URL
with an opaque path) and stays as it was. -/
structure UrlPlatform.Lawful (P : UrlPlatform) : Prop where
  roundTrip : ∀ u : P.Rec, P.parse (P.href u) = some u
  assignKeepsSuffix : ∀ (u : P.Rec) (p : String), endsWith p "/chat/completions" = true →
    endsWith (P.pathname (P.setPathname u p)) "/chat/completions" = true
      ∨ P.setPathname u p = u

/-! ## `getDeepSeekChatCompletionsEndpoint` (`server.js` 70-79, `api/chat.js` 1-8) -/

/-- The body of `getDeepSeekChatCompletionsEndpoint` after `new URL` succeeded. -/
def endpointOfURL (P : UrlPlatform) (u : P.Rec) : String :=
  if endsWith (P.pathname u) "/chat/completions" then P.href u
  else
    let basePath := stripTrailingSlashes (P.pathname u)
    let basePath :=
      if !endsWith basePath "/v1" then collapseSlashes (basePath ++ "/v1") else basePath
    P.href (P.setPathname u (collapseSlashes (basePath ++ "/chat/completions")))

/-- Function `getDeepSeekChatCompletionsEndpoint(deepseekUrl)`; `none` when `new URL`
throws. -/
def getDeepSeekChatCompletionsEndpoint (P : UrlPlatform) (deepseekUrl : String) :
    Option String :=
  (P.parse deepseekUrl).map (endpointOfURL P)

/-! ## A concrete platform

One platform, used to evaluate the code on concrete inputs. It accepts the `http://` and
`https://` URLs with a plain host, a path, an optional query and an optional fragment
over characters that the WHATWG parser stores unchanged, and parses them as that parser
does: an upper-case host is lower-cased, an empty path becomes `/`, everything else is
kept. Every other text it rejects; that covers the texts the WHATWG parser rejects for
having no scheme, and also many URLs that parser accepts (other schemes, ports, user
info, IP addresses, characters it percent-encodes, dot segments), so a rejection by this
platform says nothing about the WHATWG parser beyond the texts without a scheme. -/

/-- The two schemes of the concrete platform. -/
inductive Scheme where
  | http
  | https
  deriving DecidableEq, Repr

/-- The text of a scheme with its `://`. -/
def Scheme.prefixText : Scheme → String
  | .http => "http://"
  | .https => "https://"

/-- A parsed URL: scheme, host, `pathname`, and the query and fragment when present
(without their `?` and `#`). -/
structure URL where
  scheme : Scheme
  host : String
  pathname : String
  query : Option String
  fragment : Option String
  deriving DecidableEq, Repr

/-- Characters that the WHATWG parser leaves untouched in a path, a query and a
fragment. -/
def isPlainChar (c : Char) : Bool :=
  c.isAlphanum || "-._~!$&()*+,;=:@%".data.contains c

/-- A path character of the concrete platform. -/
def isPathChar (c : Char) : Bool := isPlainChar c || c == '/'

/-- A query character of the concrete platform. -/
def isQueryChar (c : Char) : Bool := isPlainChar c || c == '/' || c == '?'

/-- A fragment character of the concrete platform. -/
def isFragmentChar (c : Char) : Bool := isPlainChar c || c == '/' || c == '?' || c == '#'

/-- The pieces of `l` between occurrences of `sep`. -/
def splitOnChar (sep : Char) : List Char → List (List Char)
  | [] => [[]]
  | c :: cs =>
    if c == sep then [] :: splitOnChar sep cs
    else
      match splitOnChar sep cs with
      | [] => [[c]]
      | s :: ss => (c :: s) :: ss

/-- The path segments the WHATWG parser treats as `.` or `..`. -/
def dotSegments : List (List Char) :=
  [".", "..", "%2e", "%2E", ".%2e", ".%2E", "%2e.", "%2E.",
   "%2e%2e", "%2e%2E", "%2E%2e", "%2E%2E"].map String.data

/-- A path of the concrete platform: starts with `/`, its characters only, no dot
segment. -/
def isPathL (p : List Char) : Bool :=
  p.head? == some '/' && p.all isPathChar &&
    (splitOnChar '/' p).all (fun s => !dotSegments.contains s)

/-- A host label in serialised form: non-empty, lower-case letters, digits and hyphens,
not a punycode label. -/
def isLabelL (l : List Char) : Bool :=
  !l.isEmpty && l.all (fun c => c.isLower || c.isDigit || c == '-')
    && !("xn--".data.isPrefixOf l)

/-- A label the WHATWG host parser reads as a number (decimal, octal or `0x` hex), which
makes it treat the host as an IPv4 address. -/
def isNumberLabelL (l : List Char) : Bool :=
  l.all Char.isDigit
    || ("0x".data.isPrefixOf l && (l.drop 2).all (fun c => c.isDigit || "abcdef".data.contains c))

/-- A host in the serialised form of a domain: dot-separated labels, the last of which is
not a number. The WHATWG parser stores such a host unchanged. -/
def isHostL (h : List Char) : Bool :=
  (splitOnChar '.' h).all isLabelL
    && !(match (splitOnChar '.' h).getLast? with
         | some l => isNumberLabelL l
         | none => true)

/-- A host in serialised form, as a string. -/
def isHost (h : String) : Bool := isHostL h.data

/-- An ASCII upper-case letter becomes lower-case, as in the host of a parsed URL. -/
def lowerAscii (c : Char) : Char := if c.isUpper then Char.ofNat (c.toNat + 32) else c

/-- Splits off the scheme. -/
def stripScheme (l : List Char) : Option (Scheme × List Char) :=
  if "https://".data.isPrefixOf l then some (.https, l.drop 8)
  else if "http://".data.isPrefixOf l then some (.http, l.drop 7)
  else none

/-- The text after `sep` when `l` starts with `sep`. -/
def afterMark (sep : Char) : List Char → Option (List Char)
  | [] => none
  | c :: cs => if c == sep then some cs else none

/-- The URL records of the concrete platform: host, path, query and fragment stay within
the characters and shapes listed above. -/
def URL.wellFormed (u : URL) : Bool :=
  isHostL u.host.data && isPathL u.pathname.data
    && ((u.query.map String.data).getD []).all isQueryChar
    && ((u.fragment.map String.data).getD []).all isFragmentChar

/-- The state of a URL object of the concrete platform. -/
abbrev PlainURL := { u : URL // u.wellFormed = true }

/-- Keeps a record when it is one of the concrete platform. -/
def URL.checked (u : URL) : Option PlainURL :=
  if h : u.wellFormed = true then some ⟨u, h⟩ else none

/-- JavaScript `new URL(text)` on the concrete platform. -/
def URL.parse (text : String) : Option PlainURL :=
  match stripScheme text.data with
  | none => none
  | some (scheme, rest) =>
    let host := (rest.takeWhile (fun c => !(c == '/' || c == '?' || c == '#'))).map lowerAscii
    let afterHost := rest.dropWhile (fun c => !(c == '/' || c == '?' || c == '#'))
    let path := afterHost.takeWhile (fun c => !(c == '?' || c == '#'))
    let afterPath := afterHost.dropWhile (fun c => !(c == '?' || c == '#'))
    let query := (afterMark '?' afterPath).map (fun r => r.takeWhile (fun c => !(c == '#')))
    let afterQuery := afterPath.dropWhile (fun c => !(c == '#'))
    let fragment := afterMark '#' afterQuery
    let pathname := if path.isEmpty then ['/'] else path
    URL.checked { scheme := scheme, host := ⟨host⟩, pathname := ⟨pathname⟩,
                  query := query.map String.mk, fragment := fragment.map String.mk }

/-- The text of a query or fragment with its mark, empty when absent. -/
def markedL (mark : Char) : Option (List Char) → List Char
  | none => []
  | some t => mark :: t

/-- JavaScript `u.toString()`: the serialised URL. -/
def URL.toString (u : URL) : String :=
  u.scheme.prefixText ++ u.host ++ u.pathname
    ++ (match u.query with | none => "" | some q => "?" ++ q)
    ++ (match u.fragment with | none => "" | some f => "#" ++ f)

/-- JavaScript `u.pathname = p` on the concrete platform: a path over its characters
without dot segments is stored as given, a missing leading slash being supplied, as the
WHATWG setter does; for any other path this platform leaves the record as it was. -/
def PlainURL.setPathname (u : PlainURL) (p : String) : PlainURL :=
  match URL.checked { u.val with pathname := if startsWith p "/" then p else "/" ++ p } with
  | some v => v
  | none => u

/-- The concrete platform. -/
def plainPlatform : UrlPlatform where
  Rec := PlainURL
  parse := URL.parse
  href := fun u => u.val.toString
  pathname := fun u => u.val.pathname
  setPathname := PlainURL.setPathname

/-- The path lines 75-77 of `server.js` compute from `u.pathname`, on characters. -/
def newPathL (p : List Char) : List Char :=
  let basePath := stripTrailingSlashesL p
  let basePath :=
    if !("/v1".data.isSuffixOf basePath) then collapseSlashesL (basePath ++ "/v1".data)
    else basePath
  collapseSlashesL (basePath ++ "/chat/completions".data)

/-- A path under construction: empty or slash-led, path characters, no dot segment. -/
def PathBody (p : List Char) : Prop :=
  (p = [] ∨ p.head? = some '/') ∧ (∀ c ∈ p, isPathChar c = true) ∧
    (∀ s ∈ splitOnChar '/' p, dotSegments.contains s = false)

/-! ## `parseDotEnv` and `loadConfig` (`server.js` 19-51)

A string-keyed object whose values are strings is a property list in insertion order,
with one entry per key. -/

/-- ECMAScript `WhiteSpace` and `LineTerminator`: what `String.prototype.trim` removes. -/
def isTrimChar (c : Char) : Bool :=
  [0x09, 0x0A, 0x0B, 0x0C, 0x0D, 0x20, 0xA0, 0x1680, 0x2000, 0x2001, 0x2002, 0x2003,
   0x2004, 0x2005, 0x2006, 0x2007, 0x2008, 0x2009, 0x200A, 0x2028, 0x2029, 0x202F,
   0x205F, 0x3000, 0xFEFF].contains c.toNat

/-- JavaScript `s.trim()` on characters. -/
def trimL (l : List Char) : List Char :=
  ((l.dropWhile isTrimChar).reverse.dropWhile isTrimChar).reverse

/-- JavaScript `s.trim()`. -/
def trim (s : String) : String := ⟨trimL s.data⟩

/-- JavaScript `text.split(/\r?\n/)` on characters. -/
def splitLinesL : List Char → List (List Char)
  | [] => [[]]
  | c :: rest =>
    if c == '\n' then [] :: splitLinesL rest
    -- a `\r` right before `\n` belongs to the separator that the `\n` ends
    else if c == '\r' && rest.head? == some '\n' then splitLinesL rest
    else
      match splitLinesL rest with
      | [] => [[c]]
      | s :: ss => (c :: s) :: ss

/-- An object with string values. -/
abbrev Env := List (String × String)

/-- JavaScript `o[key] = value` as a data property: the entry is replaced in place when the key
exists and appended otherwise. -/
def setProp {α : Type} : List (String × α) → String → α → List (String × α)
  | [], key, value => [(key, value)]
  | (k, v) :: rest, key, value =>
    if k == key then (key, value) :: rest else (k, v) :: setProp rest key value

/-- JavaScript `{ ...a, ...b }`: the properties of `a`, then those of `b` assigned over them. -/
def spread {α : Type} (a b : List (String × α)) : List (String × α) :=
  b.foldl (fun o e => setProp o e.1 e.2) a

/-- One iteration of the loop of `parseDotEnv` on `rawLine`. -/
def parseDotEnvLine (env : Env) (rawLine : List Char) : Env :=
  let line := trimL rawLine
  if line.isEmpty || "#".data.isPrefixOf line then env
  else if !line.contains '=' then env
  else
    let key := trimL (line.takeWhile (fun c => !(c == '=')))
    let value := trimL ((line.dropWhile (fun c => !(c == '='))).drop 1)
    let value :=
      if ("\"".data.isPrefixOf value && "\"".data.isSuffixOf value)
          || ("'".data.isPrefixOf value && "'".data.isSuffixOf value)
      then (value.drop 1).dropLast else value
    -- `env[key] = value` on a plain object: the key `__proto__` reaches the inherited
    -- setter, which ignores a string, so no property is created for it
    if key == "__proto__".data then env else setProp env ⟨key⟩ ⟨value⟩

/-- Function `parseDotEnv(text)`; `none` is the `null` of an unreadable file. -/
def parseDotEnv (text : Option String) : Env :=
  match text with
  | none => []
  | some t => if t = "" then [] else (splitLinesL t.data).foldl parseDotEnvLine []

/-- JavaScript `a || b` on an optional string property: `b` when `a` is undefined or empty. -/
def orString (a : Option String) (b : String) : String :=
  match a with
  | some s => if s = "" then b else s
  | none => b

/-- The record `loadConfig` returns. -/
structure Config where
  apiKey : String
  url : String
  model : String
  deriving DecidableEq, Repr

/-- Function `loadConfig()` of `server.js`: `processEnv` is `process.env`, `envFile` the result of
`readTextFileOrNull(ENV_PATH)`. -/
def loadConfig (processEnv : Env) (envFile : Option String) : Config :=
  let env := spread (spread [] processEnv) (parseDotEnv envFile)
  { apiKey := orString (env.lookup "DEEPSEEK_API_KEY") ""
    url := orString (env.lookup "DEEPSEEK_URL") "https://api.deepseek.com/v1"
    model := orString (env.lookup "DEEPSEEK_MODEL") "deepseek-chat" }

/-- The three constants at lines 27-29 of `api/chat.js`, read from `process.env` alone. -/
def envConfig (processEnv : Env) : Config :=
  { apiKey := orString (processEnv.lookup "DEEPSEEK_API_KEY") ""
    url := orString (processEnv.lookup "DEEPSEEK_URL") "https://api.deepseek.com/v1"
    model := orString (processEnv.lookup "DEEPSEEK_MODEL") "deepseek-chat" }

/-! ## JavaScript values

The values `JSON.parse` produces. `undefined` is `none` of `Option Json`. A number is
identified by the text `String(x)` gives for it (`"0.6"`, `"120"`, `"0"`); the program
only passes numbers through and tests them for being zero. An object is its property
list in enumeration order, one entry per key. -/

/-- A value produced by `JSON.parse`. -/
inductive Json where
  | null
  | bool (b : Bool)
  | num (text : String)
  | str (s : String)
  | arr (items : List Json)
  | obj (props : List (String × Json))
  deriving Repr

/-- JavaScript `Boolean(v)` for a defined value. -/
def Json.truthy : Json → Bool
  | .null => false
  | .bool b => b
  | .num t => !(t == "0" || t == "NaN")
  | .str s => !(s == "")
  | .arr _ => true
  | .obj _ => true

/-- JavaScript `Boolean(v)`. -/
def truthy : Option Json → Bool
  | none => false
  | some j => j.truthy

/-- JavaScript `v?.name` for the property names this program reads (`messages`, `temperature`,
`max_tokens`, `model`, `stream`, `error`, `message`, `choices`, `content`): none of them
exists on a primitive, on an array or on `Object.prototype`, so only an object's own
property is found. -/
def prop (v : Option Json) (name : String) : Option Json :=
  match v with
  | some (.obj props) => props.lookup name
  | _ => none

/-- JavaScript `v?.[0]`: the first element of an array, the property `"0"` of an object, the
first character of a string (for a character outside the basic plane JavaScript gives
its first code unit; the program reads only `.message` of the result, which is
`undefined` for every string). -/
def index0 (v : Option Json) : Option Json :=
  match v with
  | some (.arr items) => items.head?
  | some (.obj props) => props.lookup "0"
  | some (.str s) =>
    (match s.data with
      | [] => none
      | c :: _ => some (.str (String.singleton c)))
  | _ => none

/-- JavaScript `a || b` where `b` is defined. -/
def orElse (a : Option Json) (b : Json) : Json :=
  match a with
  | some j => if j.truthy then j else b
  | none => b

/-- JavaScript `typeof v === "number"`. -/
def isNumber : Option Json → Bool
  | some (.num _) => true
  | _ => false

mutual
/-- JavaScript `String(v)`; `none` is the `TypeError` thrown for an object whose own `toString`
property hides the inherited method (a parsed value is never callable). -/
def jsString : Json → Option String
  | .null => some "null"
  | .bool b => some (if b then "true" else "false")
  | .num t => some t
  | .str s => some s
  | .arr items => joinItems items
  | .obj props => if props.any (fun e => e.1 == "toString") then none else some "[object Object]"
termination_by structural j => j
/-- JavaScript `items.join(",")` as `Array.prototype.toString` performs it. -/
def joinItems : List Json → Option String
  | [] => some ""
  | x :: rest =>
    (match x with
      | .null => some ""
      | _ => jsString x).bind fun first =>
    (match rest with
      | [] => some ""
      | _ :: _ => (joinItems rest).map fun more => "," ++ more).map fun tail =>
    first ++ tail
termination_by structural l => l
end

/-- A thrown `Error`: its `name` and `message`. -/
structure JsError where
  name : String
  message : String
  deriving DecidableEq, Repr

/-- JavaScript `String(e?.message || e)` for a thrown `Error`: its message, or, when that is empty,
what `Error.prototype.toString` gives, which is then the name. -/
def errorText (e : JsError) : String :=
  if e.message = "" then e.name else e.message

/-! ## The upstream transport and the response

`fetch` is the platform transport. A call is recorded with its URL, headers and the
value handed to `JSON.stringify`; the transport is a function from the call to what the
handler observes of its result. -/

/-- The arguments of one `fetch` call; `body` is the value passed to `JSON.stringify`. -/
structure FetchCall where
  url : String
  method : String
  headers : List (String × String)
  body : Json
  deriving Repr

/-- What the handler can observe of an upstream response. -/
structure UpstreamResponse where
  -- `upstreamRes.ok`
  ok : Bool
  -- `upstreamRes.status`
  status : Nat
  -- the value of `await upstreamRes.json().catch(() => ({}))`: the parsed body, or the
  -- empty object when the body is not JSON
  json : Json
  -- whether `upstreamRes.body` is non-null
  hasBody : Bool
  -- `upstreamRes.headers.get("content-type")`
  contentType : Option String
  -- the chunks the body iterator yields, in order
  chunks : List (List UInt8)
  -- the error the body iterator throws after the chunks, if it fails
  failure : Option JsError
  deriving Repr

/-- The result of `await fetch(...)`. -/
inductive FetchResult where
  | rejected (e : JsError)
  | response (r : UpstreamResponse)
  deriving Repr

/-- The transport. -/
abbrev Transport := FetchCall → FetchResult

/-- One `res.write(x)` or `res.end(x)` with data. -/
inductive Write where
  -- the text `JSON.stringify(j)`
  | json (j : Json)
  -- a literal text
  | text (s : String)
  -- the text of the template `data: ${JSON.stringify(j)}\n\n`
  | frame (j : Json)
  -- an upstream chunk, as received
  | bytes (chunk : List UInt8)
  deriving Repr

/-- The response written to the caller: status, headers in the order set, and the writes
in order; every path ends the response after its last write. -/
structure Response where
  status : Nat
  headers : List (String × String)
  writes : List Write
  deriving Repr

/-- How a handler invocation ends. -/
inductive Outcome where
  -- a response was written and ended
  | responded (r : Response)
  -- an exception left the handler: its promise rejects and nothing was written
  | threw
  deriving Repr

/-- A handler invocation: how it ended and the `fetch` calls it issued, in order. -/
structure Run where
  outcome : Outcome
  calls : List FetchCall
  deriving Repr

/-- The UTF-8 bytes of a text. -/
def utf8 (s : String) : List UInt8 := s.data.flatMap String.utf8EncodeChar

/-- The bytes of one write on the wire, given the platform serialiser. -/
def Write.toBytes (stringify : Json → String) : Write → List UInt8
  | .json j => utf8 (stringify j)
  | .text s => utf8 s
  | .frame j => utf8 ("data: " ++ stringify j ++ "\n\n")
  | .bytes chunk => chunk

/-- The body on the wire: the writes, concatenated in order. -/
def wire (stringify : Json → String) (writes : List Write) : List UInt8 :=
  (writes.map (Write.toBytes stringify)).flatten

/-! ## The chat handlers

Both handlers take what they read from their surroundings as arguments: the URL
platform, the process environment (and, for `server.js`, the text of `.env`), the result
of `readJson(req)` (the parsed payload, or the error thrown while reading or parsing),
and the transport.
The `AbortController` wiring does not affect what a handler writes for a given upstream
result and is left out. -/

/-- The test `!Array.isArray(messages) || messages.length === 0`: the value when it is a
non-empty array, `none` when the test rejects it. -/
def validMessages : Option Json → Option Json
  | some (.arr (m :: ms)) => some (.arr (m :: ms))
  | _ => none

/-- The upstream request body built at `server.js` 121-127 and `api/chat.js` 72-78;
`messages` is the validated array. -/
def upstreamBody (payload : Json) (messages : Json) (defaultModel : String) : Json :=
  let temperature := prop (some payload) "temperature"
  let max_tokens := prop (some payload) "max_tokens"
  let model := orElse (prop (some payload) "model") (.str defaultModel)
  let stream := truthy (prop (some payload) "stream")
  .obj ([("model", model), ("messages", messages),
         ("temperature", match temperature with
                         | some (.num t) => .num t
                         | _ => .num "0.6")]
        ++ (match max_tokens with
            | some (.num n) => [("max_tokens", .num n)]
            | _ => [])
        ++ (if stream then [("stream", .bool true)] else []))

/-- The `fetch` call both handlers issue. -/
def upstreamCall (endpoint apiKey : String) (body : Json) : FetchCall :=
  { url := endpoint
    method := "POST"
    headers := [("Content-Type", "application/json"), ("Authorization", "Bearer " ++ apiKey)]
    body := body }

/-- The message picked at `server.js` 158-161 and `api/chat.js` 105-108. -/
def upstreamErrorMessage (upstreamJson : Json) (status : Nat) : Json :=
  orElse (prop (prop (some upstreamJson) "error") "message")
    (orElse (prop (some upstreamJson) "message") (.str ("Upstream HTTP " ++ toString status)))

/-- The `choices?.[0]?.message?.content` of an upstream body. -/
def choiceContent (upstreamJson : Json) : Option Json :=
  prop (prop (index0 (prop (some upstreamJson) "choices")) "message") "content"

/-- The writes of the streaming branch after the headers (`server.js` 173-196,
`api/chat.js` 122-145). -/
def streamWrites (r : UpstreamResponse) : List Write :=
  if !r.hasBody then [.text "data: [DONE]\n\n"]
  else
    let ct := orString r.contentType ""
    if !includes ct "text/event-stream" then
      let content := orElse (choiceContent r.json) (.str "")
      (if content.truthy then
          [.frame (.obj [("choices", .arr [.obj [("delta", .obj [("content", content)])]])])]
        else [])
        ++ [.text "data: [DONE]\n\n"]
    else
      -- `for await (const chunk of upstreamRes.body) res.write(chunk)`, the `catch`
      -- writing one error frame, and `finally { res.end() }` adding no data
      r.chunks.map Write.bytes
        ++ (match r.failure with
            | none => []
            | some e => [.frame (.obj [("error", .str (errorText e))])])

/-- The `json(res, status, body)` of `server.js`. -/
def json (status : Nat) (body : Json) : Response :=
  { status := status
    headers := [("Content-Type", "application/json; charset=utf-8"), ("Cache-Control", "no-store")]
    writes := [.json body] }

/-- The headers of the event stream, in the order both handlers set them. -/
def eventStreamHeaders : List (String × String) :=
  [("Content-Type", "text/event-stream; charset=utf-8"), ("Cache-Control", "no-store"),
   ("Connection", "keep-alive"), ("X-Accel-Buffering", "no")]

/-- Function `handleApiChat(req, res)` of `server.js` (lines 90-205). -/
def handleApiChat (P : UrlPlatform) (processEnv : Env) (envFile : Option String)
    (body : Except JsError Json) (fetch : Transport) : Run :=
  let cfg := loadConfig processEnv envFile
  if cfg.apiKey = "" then
    ⟨.responded (json 400 (.obj [("error", .str
      "Missing DEEPSEEK_API_KEY. Create .env next to server.js (see .env.example).")])), []⟩
  else
    match body with
    | .error e =>
      ⟨.responded (json 400 (.obj [("error", .str ("Invalid JSON: " ++ errorText e))])), []⟩
    | .ok payload =>
      let model := orElse (prop (some payload) "model") (.str cfg.model)
      let stream := truthy (prop (some payload) "stream")
      match validMessages (prop (some payload) "messages") with
      | none =>
        ⟨.responded (json 400 (.obj [("error", .str "messages must be a non-empty array")])), []⟩
      | some messages =>
      if !model.truthy then
        ⟨.responded (json 400 (.obj [("error", .str
          "model is empty; set DEEPSEEK_MODEL or pass model")])), []⟩
      else
        match getDeepSeekChatCompletionsEndpoint P cfg.url with
        | none => ⟨.threw, []⟩
        | some endpoint =>
          let call := upstreamCall endpoint cfg.apiKey (upstreamBody payload messages cfg.model)
          match fetch call with
          | .rejected e =>
            ⟨.responded (json 502 (.obj [("error", .str
              ("Upstream fetch failed: " ++ errorText e))])), [call]⟩
          | .response r =>
            if !r.ok then
              ⟨.responded (json 502 (.obj [("error", upstreamErrorMessage r.json r.status),
                ("raw", r.json)])), [call]⟩
            else if stream then
              ⟨.responded { status := 200, headers := eventStreamHeaders,
                            writes := streamWrites r }, [call]⟩
            else
              match choiceContent r.json with
              | none =>
                ⟨.responded (json 502 (.obj [("error", .str
                  "Upstream returned no choices[0].message.content"), ("raw", r.json)])), [call]⟩
              | some content =>
                if !content.truthy then
                  ⟨.responded (json 502 (.obj [("error", .str
                    "Upstream returned no choices[0].message.content"), ("raw", r.json)])),
                    [call]⟩
                else
                  match jsString content with
                  | none => ⟨.threw, [call]⟩
                  | some text => ⟨.responded (json 200 (.obj [("content", .str (trim text))])),
                      [call]⟩

/-- An error reply of `api/chat.js`: `statusCode`, the one `Content-Type` header, and
the serialised body. -/
def errorReply (status : Nat) (body : Json) : Response :=
  { status := status
    headers := [("Content-Type", "application/json; charset=utf-8")]
    writes := [.json body] }

/-- The handler `api/chat.js` exports (lines 19-162). -/
def apiChat (P : UrlPlatform) (method : String) (processEnv : Env)
    (body : Except JsError Json) (fetch : Transport) : Run :=
  if method ≠ "POST" then
    ⟨.responded (errorReply 405 (.obj [("error", .str "Method Not Allowed")])), []⟩
  else
    let cfg := envConfig processEnv
    if cfg.apiKey = "" then
      ⟨.responded (errorReply 400 (.obj [("error", .str
        "Missing DEEPSEEK_API_KEY. Set it in Vercel Project Settings → Environment Variables.")])),
        []⟩
    else
      match body with
      | .error e =>
        ⟨.responded (errorReply 400 (.obj [("error", .str ("Invalid JSON: " ++ errorText e))])),
          []⟩
      | .ok payload =>
        let model := orElse (prop (some payload) "model") (.str cfg.model)
        let stream := truthy (prop (some payload) "stream")
        match validMessages (prop (some payload) "messages") with
        | none =>
          ⟨.responded (errorReply 400 (.obj [("error", .str
            "messages must be a non-empty array")])), []⟩
        | some messages =>
        if !model.truthy then
          ⟨.responded (errorReply 400 (.obj [("error", .str
            "model is empty; set DEEPSEEK_MODEL or pass model")])), []⟩
        else
          match getDeepSeekChatCompletionsEndpoint P cfg.url with
          | none => ⟨.threw, []⟩
          | some endpoint =>
            let call := upstreamCall endpoint cfg.apiKey (upstreamBody payload messages cfg.model)
            match fetch call with
            | .rejected e =>
              ⟨.responded (errorReply 502 (.obj [("error", .str
                ("Upstream fetch failed: " ++ errorText e))])), [call]⟩
            | .response r =>
              if !r.ok then
                ⟨.responded (errorReply 502 (.obj [("error", upstreamErrorMessage r.json r.status),
                  ("raw", r.json)])), [call]⟩
              else if stream then
                ⟨.responded { status := 200, headers := eventStreamHeaders,
                              writes := streamWrites r }, [call]⟩
              else
                match choiceContent r.json with
                | none =>
                  ⟨.responded (errorReply 502 (.obj [("error", .str
                    "Upstream returned no choices[0].message.content"), ("raw", r.json)])),
                    [call]⟩
                | some content =>
                  if !content.truthy then
                    ⟨.responded (errorReply 502 (.obj [("error", .str
                      "Upstream returned no choices[0].message.content"), ("raw", r.json)])),
                      [call]⟩
                  else
                    match jsString content with
                    | none => ⟨.threw, [call]⟩
                    | some text =>
                      ⟨.responded
                        { status := 200
                          headers := [("Content-Type", "application/json; charset=utf-8"),
                                      ("Cache-Control", "no-store")]
                          writes := [.json (.obj [("content", .str (trim text))])] }, [call]⟩

/-- The request passes the checks that precede the upstream call: the key is present,
`messages` is the non-empty array `messages`, the resolved model is truthy, and the base
URL resolves to `endpoint`. -/
def Accepts (P : UrlPlatform) (cfg : Config) (payload messages : Json)
    (endpoint : String) : Prop :=
  cfg.apiKey ≠ ""
  ∧ validMessages (prop (some payload) "messages") = some messages
  ∧ (orElse (prop (some payload) "model") (.str cfg.model)).truthy = true
  ∧ getDeepSeekChatCompletionsEndpoint P cfg.url = some endpoint

/-- The fields that the specification lists for the upstream body, in its words: `model`
(the payload's, or the default when that is falsy), `messages` unchanged, `temperature`
(the payload's when a number, else 0.6), `max_tokens` exactly when it is a number,
`stream` exactly when truthy and then `true`, and never `stream: false`. -/
def HasSpecifiedFields (payload : Json) (defaultModel : String)
    (fields : List (String × Json)) : Prop :=
  fields.map Prod.fst
      = ["model", "messages", "temperature"]
        ++ (if isNumber (prop (some payload) "max_tokens") then ["max_tokens"] else [])
        ++ (if truthy (prop (some payload) "stream") then ["stream"] else [])
  ∧ fields.lookup "model"
      = (if truthy (prop (some payload) "model") then prop (some payload) "model"
         else some (.str defaultModel))
  ∧ fields.lookup "messages" = prop (some payload) "messages"
  ∧ fields.lookup "temperature"
      = (if isNumber (prop (some payload) "temperature") then prop (some payload) "temperature"
         else some (.num "0.6"))
  ∧ fields.lookup "max_tokens"
      = (if isNumber (prop (some payload) "max_tokens") then prop (some payload) "max_tokens"
         else none)
  ∧ fields.lookup "stream"
      = (if truthy (prop (some payload) "stream") then some (.bool true) else none)
  ∧ ("stream", Json.bool false) ∉ fields

/-! ## Sample inputs -/

/-- A process environment that holds only the key. -/
def demoEnv : Env := [("DEEPSEEK_API_KEY", "k")]

/-- The `messages` of the sample request. -/
def demoMessages : Json := .arr [.obj [("role", .str "user"), ("content", .str "hi")]]

/-- A request payload in the shape the smoke script sends, with the given `stream`. -/
def demoPayload (stream : Bool) : Json :=
  .obj [("messages", demoMessages), ("temperature", .num "0.2"), ("max_tokens", .num "120"),
        ("stream", .bool stream)]

/-- The endpoint the default base URL resolves to. -/
def demoEndpoint : String := "https://api.deepseek.com/v1/chat/completions"

/-- An upstream response with the given status flag, status, parsed body, content type,
chunks and failure; its body is present. -/
def demoResponse (ok : Bool) (status : Nat) (body : Json) (contentType : Option String)
    (chunks : List (List UInt8)) (failure : Option JsError) : UpstreamResponse :=
  { ok := ok, status := status, json := body, hasBody := true, contentType := contentType,
    chunks := chunks, failure := failure }

/-! ## Lemmas on the string primitives -/

theorem splitOnChar_ne_nil (sep : Char) (l : List Char) : splitOnChar sep l ≠ [] := by
  induction l with
  | nil => simp [splitOnChar]
  | cons c cs ih =>
    unfold splitOnChar
    split
    · simp
    · split <;> simp

theorem splitOnChar_append_sep (sep : Char) (a b : List Char) :
    splitOnChar sep (a ++ sep :: b) = splitOnChar sep a ++ splitOnChar sep b := by
  induction a with
  | nil => simp [splitOnChar]
  | cons c cs ih =>
    by_cases h : (c == sep) = true
    · simp [splitOnChar, h, ih]
    · have hne := splitOnChar_ne_nil sep cs
      cases hs : splitOnChar sep cs with
      | nil => exact absurd hs hne
      | cons s ss => simp [splitOnChar, h, ih, hs]

theorem mem_of_mem_splitOnChar (sep : Char) (l s : List Char) (c : Char)
    (hs : s ∈ splitOnChar sep l) (hc : c ∈ s) : c ∈ l := by
  induction l generalizing s with
  | nil => simp [splitOnChar] at hs; subst hs; simp at hc
  | cons d ds ih =>
    by_cases h : (d == sep) = true
    · simp [splitOnChar, h] at hs
      rcases hs with rfl | hs
      · simp at hc
      · exact List.mem_cons_of_mem _ (ih s hs hc)
    · have hne := splitOnChar_ne_nil sep ds
      cases hd : splitOnChar sep ds with
      | nil => exact absurd hd hne
      | cons t ts =>
        simp [splitOnChar, h, hd] at hs
        rcases hs with hs | hs
        · subst hs
          rcases List.mem_cons.1 hc with hc | hc
          · simp [hc]
          · exact List.mem_cons_of_mem _ (ih t (by simp [hd]) hc)
        · exact List.mem_cons_of_mem _ (ih s (by simp [hd, hs]) hc)

theorem mem_splitOnChar_of_mem (sep : Char) (l : List Char) (c : Char) (hc : c ∈ l)
    (hne : c ≠ sep) : ∃ s ∈ splitOnChar sep l, c ∈ s := by
  induction l with
  | nil => simp at hc
  | cons d ds ih =>
    by_cases h : (d == sep) = true
    · have hd : d = sep := by simpa using h
      rcases List.mem_cons.1 hc with rfl | hc
      · exact absurd hd hne
      · obtain ⟨s, hs, hcs⟩ := ih hc
        exact ⟨s, by simp [splitOnChar, h, hs], hcs⟩
    · have hnil := splitOnChar_ne_nil sep ds
      cases hd : splitOnChar sep ds with
      | nil => exact absurd hd hnil
      | cons t ts =>
        rcases List.mem_cons.1 hc with rfl | hc
        · exact ⟨c :: t, by simp [splitOnChar, h, hd], by simp⟩
        · obtain ⟨s, hs, hcs⟩ := ih hc
          rw [hd] at hs
          rcases List.mem_cons.1 hs with rfl | hs
          · exact ⟨d :: s, by simp [splitOnChar, h, hd], List.mem_cons_of_mem _ hcs⟩
          · exact ⟨s, by simp [splitOnChar, h, hd, hs], hcs⟩

theorem collapseSlashesL_head (l : List Char) :
    (collapseSlashesL l).head? = l.head? := by
  induction l using collapseSlashesL.induct with
  | case1 => rfl
  | case2 c => rfl
  | case3 c d rest h ih =>
    simp only [Bool.and_eq_true, beq_iff_eq] at h
    obtain ⟨rfl, rfl⟩ := h
    rw [collapseSlashesL]
    simpa using ih
  | case4 c d rest h ih =>
    rw [collapseSlashesL]
    simp [h]

theorem collapseSlashesL_getLast (l : List Char) :
    (collapseSlashesL l).getLast? = l.getLast? := by
  induction l using collapseSlashesL.induct with
  | case1 => rfl
  | case2 c => rfl
  | case3 c d rest h ih =>
    rw [collapseSlashesL]
    simp [h, ih, List.getLast?_cons_cons]
  | case4 c d rest h ih =>
    rw [collapseSlashesL]
    simp only [h, if_false, Bool.false_eq_true]
    have hne : collapseSlashesL (d :: rest) ≠ [] := by
      intro h0
      have := collapseSlashesL_head (d :: rest)
      simp [h0] at this
    obtain ⟨x, xs, hx⟩ := List.exists_cons_of_ne_nil hne
    rw [hx, List.getLast?_cons_cons, ← hx, ih, List.getLast?_cons_cons]

theorem mem_of_mem_collapseSlashesL (l : List Char) (x : Char)
    (hx : x ∈ collapseSlashesL l) : x ∈ l := by
  induction l using collapseSlashesL.induct with
  | case1 => exact hx
  | case2 c => exact hx
  | case3 c d rest h ih =>
    rw [collapseSlashesL] at hx
    simp only [h, if_true] at hx
    exact List.mem_cons_of_mem _ (ih hx)
  | case4 c d rest h ih =>
    rw [collapseSlashesL] at hx
    simp only [h, if_false, Bool.false_eq_true, List.mem_cons] at hx
    rcases hx with hx | hx
    · simp [hx]
    · exact List.mem_cons_of_mem _ (ih hx)

theorem collapseSlashesL_append_of_ne (a b : List Char) (c : Char) (hc : c ≠ '/') :
    collapseSlashesL (a ++ c :: b) = collapseSlashesL a ++ collapseSlashesL (c :: b) := by
  induction a using collapseSlashesL.induct with
  | case1 => simp [collapseSlashesL]
  | case2 x =>
    show collapseSlashesL (x :: c :: b) = [x] ++ collapseSlashesL (c :: b)
    rw [collapseSlashesL]
    simp [hc]
  | case3 x y rest h ih =>
    show collapseSlashesL (x :: y :: (rest ++ c :: b)) = _
    rw [collapseSlashesL, collapseSlashesL.eq_3 x y rest]
    simp only [h, if_true]
    exact ih
  | case4 x y rest h ih =>
    show collapseSlashesL (x :: y :: (rest ++ c :: b)) = _
    rw [collapseSlashesL, collapseSlashesL.eq_3 x y rest]
    simp only [h, if_false, Bool.false_eq_true, List.cons_append]
    exact congrArg _ ih

theorem splitOnChar_collapseSlashesL (l : List Char) :
    (splitOnChar '/' (collapseSlashesL l)).head? = (splitOnChar '/' l).head? ∧
      ∀ s ∈ (splitOnChar '/' (collapseSlashesL l)).tail, s ∈ (splitOnChar '/' l).tail := by
  induction l using collapseSlashesL.induct with
  | case1 => simp [collapseSlashesL]
  | case2 c => simp [collapseSlashesL]
  | case3 c d rest h ih =>
    simp only [Bool.and_eq_true, beq_iff_eq] at h
    obtain ⟨rfl, rfl⟩ := h
    rw [collapseSlashesL]
    simp only [beq_self_eq_true, Bool.and_self, if_true]
    refine ⟨?_, ?_⟩
    · rw [ih.1]; simp [splitOnChar]
    · intro s hs
      have := ih.2 s hs
      rw [splitOnChar]
      simp only [beq_self_eq_true, if_true, List.tail_cons]
      exact List.mem_of_mem_tail this
  | case4 c d rest h ih =>
    rw [collapseSlashesL]
    simp only [h, if_false, Bool.false_eq_true]
    have hn1 := splitOnChar_ne_nil '/' (collapseSlashesL (d :: rest))
    have hn2 := splitOnChar_ne_nil '/' (d :: rest)
    obtain ⟨t1, ts1, h1⟩ := List.exists_cons_of_ne_nil hn1
    obtain ⟨t2, ts2, h2⟩ := List.exists_cons_of_ne_nil hn2
    have ih1 := ih.1
    have ih2 := ih.2
    rw [h1, h2] at ih1
    rw [h1, h2] at ih2
    simp only [List.head?_cons, Option.some.injEq] at ih1
    simp only [List.tail_cons] at ih2
    subst ih1
    rw [splitOnChar, splitOnChar.eq_2 '/' c (d :: rest)]
    by_cases hc : (c == '/') = true
    · simp only [hc, if_true, List.head?_cons, List.tail_cons, h1, h2, true_and]
      intro s hs
      rcases List.mem_cons.1 hs with hs | hs
      · exact List.mem_cons.2 (Or.inl hs)
      · exact List.mem_cons_of_mem _ (ih2 s hs)
    · simp only [hc, if_false, Bool.false_eq_true, h1, h2, List.head?_cons, true_and,
        List.tail_cons]
      exact ih2

theorem mem_splitOnChar_collapseSlashesL (l s : List Char)
    (hs : s ∈ splitOnChar '/' (collapseSlashesL l)) : s ∈ splitOnChar '/' l := by
  have h := splitOnChar_collapseSlashesL l
  obtain ⟨t1, ts1, h1⟩ := List.exists_cons_of_ne_nil (splitOnChar_ne_nil '/' (collapseSlashesL l))
  obtain ⟨t2, ts2, h2⟩ := List.exists_cons_of_ne_nil (splitOnChar_ne_nil '/' l)
  rw [h1, h2] at h
  rw [h1] at hs
  rw [h2]
  simp only [List.head?_cons, Option.some.injEq, List.tail_cons] at h
  rcases List.mem_cons.1 hs with hs | hs
  · exact List.mem_cons.2 (Or.inl (hs.trans h.1))
  · exact List.mem_cons_of_mem _ (h.2 s hs)

theorem stripTrailingSlashesL_decomp (l : List Char) :
    ∃ t, l = stripTrailingSlashesL l ++ t ∧ ∀ c ∈ t, c = '/' := by
  refine ⟨(l.reverse.takeWhile (fun c => c == '/')).reverse, ?_, ?_⟩
  · unfold stripTrailingSlashesL
    rw [← List.reverse_append, List.takeWhile_append_dropWhile, List.reverse_reverse]
  · intro c hc
    have := List.mem_takeWhile_imp (List.mem_reverse.1 hc)
    simpa using this

theorem splitOnChar_append_all_sep (sep : Char) (a t : List Char) (ht : ∀ c ∈ t, c = sep)
    (s : List Char) (hs : s ∈ splitOnChar sep a) : s ∈ splitOnChar sep (a ++ t) := by
  cases t with
  | nil => simpa using hs
  | cons c t =>
    have hc : c = sep := ht c (by simp)
    subst hc
    rw [splitOnChar_append_sep]
    exact List.mem_append_left _ hs

theorem mem_splitOnChar_stripTrailingSlashesL (l s : List Char)
    (hs : s ∈ splitOnChar '/' (stripTrailingSlashesL l)) : s ∈ splitOnChar '/' l := by
  obtain ⟨t, ht, hall⟩ := stripTrailingSlashesL_decomp l
  have := splitOnChar_append_all_sep '/' (stripTrailingSlashesL l) t hall s hs
  rwa [← ht] at this

/-! ## Lemmas on the concrete platform -/

theorem stripScheme_prefixText (sch : Scheme) (l : List Char) :
    stripScheme (sch.prefixText.data ++ l) = some (sch, l) := by
  cases sch <;> simp [stripScheme, Scheme.prefixText]

theorem isLabelL_char (l : List Char) (hl : isLabelL l = true) (c : Char) (hc : c ∈ l) :
    (c.isLower || c.isDigit || c == '-') = true := by
  unfold isLabelL at hl
  simp only [Bool.and_eq_true, List.all_eq_true] at hl
  exact hl.1.2 c hc

theorem isHostL_char (h : List Char) (hh : isHostL h = true) (c : Char) (hc : c ∈ h) :
    (c.isLower || c.isDigit || c == '-') = true ∨ c = '.' := by
  by_cases hdot : c = '.'
  · exact Or.inr hdot
  · obtain ⟨s, hs, hcs⟩ := mem_splitOnChar_of_mem '.' h c hc hdot
    unfold isHostL at hh
    simp only [Bool.and_eq_true, List.all_eq_true] at hh
    exact Or.inl (isLabelL_char s (hh.1 s hs) c hcs)

theorem hostChar_not_delim (c : Char)
    (h : (c.isLower || c.isDigit || c == '-') = true ∨ c = '.') :
    (!(c == '/' || c == '?' || c == '#')) = true := by
  by_cases h1 : c = '/'
  · subst h1; revert h; decide
  by_cases h2 : c = '?'
  · subst h2; revert h; decide
  by_cases h3 : c = '#'
  · subst h3; revert h; decide
  simp [h1, h2, h3]

theorem isHostL_not_delim (h : List Char) (hh : isHostL h = true) (c : Char) (hc : c ∈ h) :
    (!(c == '/' || c == '?' || c == '#')) = true :=
  hostChar_not_delim c (isHostL_char h hh c hc)

theorem not_upper_of_ge (c : Char) (h : c.val ≥ 91) : c.isUpper = false := by
  simp only [Char.isUpper, Bool.and_eq_false_imp, decide_eq_true_eq, decide_eq_false_iff_not]
  intro _ h2
  exact absurd (UInt32.le_trans h h2) (by decide)

theorem not_upper_of_le (c : Char) (h : c.val ≤ 64) : c.isUpper = false := by
  simp only [Char.isUpper, Bool.and_eq_false_imp, decide_eq_true_eq, decide_eq_false_iff_not]
  intro h1 _
  exact absurd (UInt32.le_trans h1 h) (by decide)

theorem hostChar_not_upper (c : Char)
    (h : (c.isLower || c.isDigit || c == '-') = true ∨ c = '.') : c.isUpper = false := by
  rcases h with h | h
  · simp only [Bool.or_eq_true, beq_iff_eq] at h
    rcases h with (h | h) | h
    · simp only [Char.isLower, Bool.and_eq_true, decide_eq_true_eq] at h
      exact not_upper_of_ge c (UInt32.le_trans (by decide) h.1)
    · simp only [Char.isDigit, Bool.and_eq_true, decide_eq_true_eq] at h
      exact not_upper_of_le c (UInt32.le_trans h.2 (by decide))
    · subst h; decide
  · subst h; decide

theorem isHostL_map_lowerAscii (h : List Char) (hh : isHostL h = true) :
    h.map lowerAscii = h := by
  have : ∀ c ∈ h, lowerAscii c = c := by
    intro c hc
    simp [lowerAscii, hostChar_not_upper c (isHostL_char h hh c hc)]
  calc h.map lowerAscii = h.map id := List.map_congr_left this
    _ = h := List.map_id h

theorem pathChar_not_mark (c : Char) (h : isPathChar c = true) :
    (!(c == '?' || c == '#')) = true := by
  by_cases h2 : c = '?'
  · subst h2; revert h; decide
  by_cases h3 : c = '#'
  · subst h3; revert h; decide
  simp [h2, h3]

theorem queryChar_not_hash (c : Char) (h : isQueryChar c = true) : (!(c == '#')) = true := by
  by_cases h3 : c = '#'
  · subst h3; revert h; decide
  simp [h3]

theorem checked_of_wellFormed (u : URL) (h : u.wellFormed = true) :
    URL.checked u = some ⟨u, h⟩ := by
  simp [URL.checked, h]

theorem checked_val (u : URL) (v : PlainURL) (h : URL.checked u = some v) : v.val = u := by
  unfold URL.checked at h
  split at h
  · simp only [Option.some.injEq] at h
    rw [← h]
  · simp at h

theorem parse_mk (sch : Scheme) (h p : List Char) (q f : Option (List Char))
    (hh : isHostL h = true) (hp : isPathL p = true)
    (hq : (q.getD []).all isQueryChar = true) :
    URL.parse ⟨sch.prefixText.data ++ h ++ p ++ markedL '?' q ++ markedL '#' f⟩
      = URL.checked { scheme := sch, host := ⟨h⟩, pathname := ⟨p⟩,
                      query := q.map String.mk, fragment := f.map String.mk } := by
  have hhost : ∀ c ∈ h, (!(c == '/' || c == '?' || c == '#')) = true :=
    isHostL_not_delim h hh
  have hp2 := hp
  unfold isPathL at hp2
  simp only [Bool.and_eq_true, List.all_eq_true, beq_iff_eq] at hp2
  obtain ⟨⟨hhead, hchars⟩, _⟩ := hp2
  obtain ⟨tl, rfl⟩ : ∃ tl, p = '/' :: tl := by
    cases p with
    | nil => simp at hhead
    | cons c tl => simp at hhead; exact ⟨tl, by rw [hhead]⟩
  have hpath : ∀ c ∈ '/' :: tl, (!(c == '?' || c == '#')) = true :=
    fun c hc => pathChar_not_mark c (hchars c hc)
  have hquery : ∀ t, q = some t → ∀ c ∈ t, (!(c == '#')) = true := by
    intro t ht c hc
    subst ht
    simp only [Option.getD_some, List.all_eq_true] at hq
    exact queryChar_not_hash c (hq c hc)
  unfold URL.parse
  simp only [List.append_assoc, stripScheme_prefixText]
  rw [List.takeWhile_append_of_pos hhost, List.dropWhile_append_of_pos hhost]
  simp only [List.cons_append, List.takeWhile_cons_of_neg, List.dropWhile_cons_of_neg,
    beq_self_eq_true, Bool.true_or, Bool.not_true, Bool.false_eq_true, not_false_eq_true,
    List.append_nil, isHostL_map_lowerAscii h hh]
  rw [← List.cons_append, List.takeWhile_append_of_pos hpath,
    List.dropWhile_append_of_pos hpath]
  cases q with
  | none =>
    cases f with
    | none => simp [markedL, afterMark]
    | some f => simp [markedL, afterMark]
  | some q =>
    have hq2 := hquery q rfl
    cases f with
    | none =>
      simp only [markedL, List.append_nil, List.cons_append, List.nil_append]
      have : List.takeWhile (fun c => !(c == '#')) q = q := by
        rw [List.takeWhile_eq_self_iff]; exact hq2
      have hd : List.dropWhile (fun c => !(c == '#')) q = [] := by
        rw [List.dropWhile_eq_nil_iff]; exact hq2
      simp [afterMark, this, hd]
    | some f =>
      simp only [markedL, List.cons_append, List.nil_append]
      have : List.takeWhile (fun c => !(c == '#')) (q ++ '#' :: f) = q := by
        rw [List.takeWhile_append_of_pos hq2]; simp
      have hd : List.dropWhile (fun c => !(c == '#')) (q ++ '#' :: f) = '#' :: f := by
        rw [List.dropWhile_append_of_pos hq2]; simp
      simp [afterMark, this, hd]

theorem toString_data (u : URL) :
    u.toString.data = u.scheme.prefixText.data ++ u.host.data ++ u.pathname.data
      ++ markedL '?' (u.query.map String.data) ++ markedL '#' (u.fragment.map String.data) := by
  obtain ⟨sch, h, p, q, f⟩ := u
  cases q <;> cases f <;> simp [URL.toString, markedL]

theorem parse_toString (u : PlainURL) : URL.parse u.val.toString = some u := by
  obtain ⟨u, hu⟩ := u
  have hu2 := hu
  unfold URL.wellFormed at hu2
  simp only [Bool.and_eq_true] at hu2
  obtain ⟨⟨⟨hh, hp⟩, hq⟩, _⟩ := hu2
  have h := parse_mk u.scheme u.host.data u.pathname.data (u.query.map String.data)
    (u.fragment.map String.data) hh hp hq
  rw [← toString_data] at h
  have hrec : URL.mk u.scheme ⟨u.host.data⟩ ⟨u.pathname.data⟩
      ((u.query.map String.data).map String.mk)
      ((u.fragment.map String.data).map String.mk) = u := by
    obtain ⟨sch, h, p, q, f⟩ := u
    cases q <;> cases f <;> rfl
  rw [hrec] at h
  show URL.parse ⟨u.toString.data⟩ = _
  rw [h, checked_of_wellFormed u hu]

/-! ## Lemmas on the endpoint resolver -/

theorem pathBody_of_isPathL (p : List Char) (hp : isPathL p = true) : PathBody p := by
  unfold isPathL at hp
  simp only [Bool.and_eq_true, List.all_eq_true, beq_iff_eq, Bool.not_eq_true'] at hp
  exact ⟨Or.inr hp.1.1, hp.1.2, hp.2⟩

theorem isPathL_of_pathBody (p : List Char) (hp : PathBody p) (hne : p ≠ []) :
    isPathL p = true := by
  unfold isPathL
  simp only [Bool.and_eq_true, List.all_eq_true, beq_iff_eq, Bool.not_eq_true']
  rcases hp.1 with h | h
  · exact absurd h hne
  · exact ⟨⟨h, hp.2.1⟩, hp.2.2⟩

theorem pathBody_strip (p : List Char) (hp : PathBody p) :
    PathBody (stripTrailingSlashesL p) := by
  obtain ⟨t, ht, _⟩ := stripTrailingSlashesL_decomp p
  refine ⟨?_, ?_, ?_⟩
  · cases hs : stripTrailingSlashesL p with
    | nil => exact Or.inl rfl
    | cons c r =>
      right
      rw [hs] at ht
      rcases hp.1 with h | h
      · rw [h] at ht; simp at ht
      · rw [ht] at h; simpa using h
  · intro c hc
    apply hp.2.1
    rw [ht]
    exact List.mem_append_left _ hc
  · intro s hs
    exact hp.2.2 s (mem_splitOnChar_stripTrailingSlashesL p s hs)

theorem pathBody_collapse (p : List Char) (hp : PathBody p) :
    PathBody (collapseSlashesL p) := by
  refine ⟨?_, ?_, ?_⟩
  · rcases hp.1 with h | h
    · left; rw [h]; rfl
    · right; rw [collapseSlashesL_head]; exact h
  · intro c hc
    exact hp.2.1 c (mem_of_mem_collapseSlashesL p c hc)
  · intro s hs
    exact hp.2.2 s (mem_splitOnChar_collapseSlashesL p s hs)

theorem pathBody_append (a lit : List Char) (ha : PathBody a)
    (hlit : PathBody ('/' :: lit)) : PathBody (a ++ '/' :: lit) := by
  refine ⟨?_, ?_, ?_⟩
  · right
    rcases ha.1 with h | h
    · rw [h]; rfl
    · cases a with
      | nil => rfl
      | cons c r => simpa using h
  · intro c hc
    rcases List.mem_append.1 hc with h | h
    · exact ha.2.1 c h
    · exact hlit.2.1 c h
  · intro s hs
    rw [splitOnChar_append_sep] at hs
    rcases List.mem_append.1 hs with h | h
    · exact ha.2.2 s h
    · apply hlit.2.2 s
      rw [splitOnChar]
      simp [h]

theorem collapseSlashesL_ne_nil (l : List Char) (h : l ≠ []) : collapseSlashesL l ≠ [] := by
  intro h0
  have := collapseSlashesL_head l
  rw [h0] at this
  cases l with
  | nil => exact h rfl
  | cons c r => simp at this

theorem pathBody_newPathL (p : List Char) (hp : PathBody p) :
    PathBody (newPathL p) ∧ newPathL p ≠ [] := by
  have h1 := pathBody_strip p hp
  have hv1 : PathBody ("/v1".data) := by
    refine ⟨Or.inr rfl, ?_, ?_⟩ <;> decide
  have hcc : PathBody ("/chat/completions".data) := by
    refine ⟨Or.inr rfl, ?_, ?_⟩ <;> decide
  have h2 : PathBody (if !("/v1".data.isSuffixOf (stripTrailingSlashesL p)) then
      collapseSlashesL (stripTrailingSlashesL p ++ "/v1".data)
      else stripTrailingSlashesL p) := by
    split
    · exact pathBody_collapse _ (pathBody_append _ _ h1 hv1)
    · exact h1
  refine ⟨pathBody_collapse _ (pathBody_append _ _ h2 hcc), ?_⟩
  apply collapseSlashesL_ne_nil
  simp

theorem collapseSlashesL_suffix (x : List Char) :
    "/chat/completions".data.isSuffixOf (collapseSlashesL (x ++ "/chat/completions".data))
      = true := by
  have hsplit : x ++ "/chat/completions".data = (x ++ ['/']) ++ 'c' :: "hat/completions".data := by
    simp
  rw [hsplit, collapseSlashesL_append_of_ne _ _ 'c' (by decide)]
  have hlast := collapseSlashesL_getLast (x ++ ['/'])
  rw [List.getLast?_append, List.getLast?_singleton] at hlast
  have hor : (some '/').or x.getLast? = some '/' := rfl
  rw [hor] at hlast
  obtain ⟨y, hy⟩ : ∃ y, collapseSlashesL (x ++ ['/']) = y ++ ['/'] := by
    rcases List.eq_nil_or_concat (collapseSlashesL (x ++ ['/'])) with h | ⟨y, c, h⟩
    · rw [h] at hlast; simp at hlast
    · rw [h] at hlast
      simp at hlast
      exact ⟨y, by rw [h, hlast]; simp⟩
  rw [hy]
  have hc : collapseSlashesL ('c' :: "hat/completions".data) = "chat/completions".data := by
    decide
  rw [hc, List.isSuffixOf_iff_suffix]
  exact ⟨y, by simp⟩

theorem collapseSlashes_suffix (base : String) :
    endsWith (collapseSlashes (base ++ "/chat/completions")) "/chat/completions" = true := by
  unfold endsWith collapseSlashes
  simp only [String.data_append]
  exact collapseSlashesL_suffix base.data

theorem newPath_eq (p : String) :
    collapseSlashes
      ((if !endsWith (stripTrailingSlashes p) "/v1"
          then collapseSlashes (stripTrailingSlashes p ++ "/v1")
          else stripTrailingSlashes p) ++ "/chat/completions")
      = ⟨newPathL p.data⟩ := by
  unfold newPathL collapseSlashes stripTrailingSlashes endsWith
  simp only [String.data_append]
  split <;> rfl

theorem wellFormed_new (u : URL) (hu : u.wellFormed = true) :
    ({ u with pathname := ⟨newPathL u.pathname.data⟩ } : URL).wellFormed = true := by
  unfold URL.wellFormed at hu ⊢
  simp only [Bool.and_eq_true] at hu ⊢
  have hb := (pathBody_newPathL _ (pathBody_of_isPathL _ hu.1.1.2))
  exact ⟨⟨⟨hu.1.1.1, isPathL_of_pathBody _ hb.1 hb.2⟩, hu.1.2⟩, hu.2⟩

theorem setPathname_new (u : PlainURL) :
    (PlainURL.setPathname u ⟨newPathL u.val.pathname.data⟩).val
      = { u.val with pathname := ⟨newPathL u.val.pathname.data⟩ } := by
  have hu := u.property
  have hu2 := hu
  unfold URL.wellFormed at hu2
  simp only [Bool.and_eq_true] at hu2
  have hb := (pathBody_newPathL _ (pathBody_of_isPathL _ hu2.1.1.2))
  have hhead : startsWith ⟨newPathL u.val.pathname.data⟩ "/" = true := by
    rcases hb.1.1 with h | h
    · exact absurd h hb.2
    · cases hn : newPathL u.val.pathname.data with
      | nil => exact absurd hn hb.2
      | cons c r =>
        rw [hn] at h
        simp only [List.head?_cons, Option.some.injEq] at h
        subst h
        simp [startsWith]
  unfold PlainURL.setPathname
  simp only [hhead, if_true]
  rw [checked_of_wellFormed _ (wellFormed_new u.val hu)]

theorem endpointOfURL_plain_new (u : PlainURL)
    (hends : endsWith u.val.pathname "/chat/completions" = false) :
    endpointOfURL plainPlatform u
      = ({ u.val with pathname := ⟨newPathL u.val.pathname.data⟩ } : URL).toString := by
  unfold endpointOfURL
  simp only [plainPlatform, hends, Bool.false_eq_true, if_false, newPath_eq, setPathname_new]

theorem plainPlatform_lawful : plainPlatform.Lawful where
  roundTrip := parse_toString
  assignKeepsSuffix := by
    intro u p hp
    show endsWith (PlainURL.setPathname u p).val.pathname "/chat/completions" = true
      ∨ PlainURL.setPathname u p = u
    unfold PlainURL.setPathname
    split
    · rename_i v hv
      left
      rw [checked_val _ _ hv]
      show endsWith (if startsWith p "/" then p else "/" ++ p) "/chat/completions" = true
      split
      · exact hp
      · unfold endsWith at hp ⊢
        rw [List.isSuffixOf_iff_suffix] at hp ⊢
        simp only [String.data_append]
        exact List.IsSuffix.trans hp (List.suffix_append _ _)
    · right; rfl

theorem endpointOfURL_fixed (P : UrlPlatform) (hP : P.Lawful) (u : P.Rec) :
    getDeepSeekChatCompletionsEndpoint P (endpointOfURL P u) = some (endpointOfURL P u) := by
  unfold getDeepSeekChatCompletionsEndpoint
  by_cases hends : endsWith (P.pathname u) "/chat/completions" = true
  · have h1 : endpointOfURL P u = P.href u := by simp [endpointOfURL, hends]
    rw [h1, hP.roundTrip u]
    simp [h1]
  · simp only [Bool.not_eq_true] at hends
    obtain ⟨base, h1⟩ : ∃ base, endpointOfURL P u
        = P.href (P.setPathname u (collapseSlashes (base ++ "/chat/completions"))) :=
      ⟨if !endsWith (stripTrailingSlashes (P.pathname u)) "/v1"
          then collapseSlashes (stripTrailingSlashes (P.pathname u) ++ "/v1")
          else stripTrailingSlashes (P.pathname u),
        by simp only [endpointOfURL, hends, Bool.false_eq_true, if_false]⟩
    rw [h1, hP.roundTrip]
    simp only [Option.map_some', Option.some.injEq]
    rcases hP.assignKeepsSuffix u _ (collapseSlashes_suffix base) with h | h
    · simp [endpointOfURL, h]
    · rw [h] at h1 ⊢
      exact h1

theorem parse_bare (sch : Scheme) (h : List Char) (hh : isHostL h = true) :
    URL.parse ⟨sch.prefixText.data ++ h⟩
      = URL.checked
          { scheme := sch, host := ⟨h⟩, pathname := "/", query := none, fragment := none } := by
  have hhost : ∀ c ∈ h, (!(c == '/' || c == '?' || c == '#')) = true :=
    isHostL_not_delim h hh
  unfold URL.parse
  simp only [stripScheme_prefixText]
  have ht : List.takeWhile (fun c => !(c == '/' || c == '?' || c == '#')) h = h := by
    rw [List.takeWhile_eq_self_iff]; exact hhost
  have hd : List.dropWhile (fun c => !(c == '/' || c == '?' || c == '#')) h = [] := by
    rw [List.dropWhile_eq_nil_iff]; exact hhost
  simp only [ht, hd, isHostL_map_lowerAscii h hh]
  rfl

theorem wellFormed_plain (h p : List Char) (hh : isHostL h = true) (hp : isPathL p = true) :
    URL.wellFormed { scheme := .https, host := ⟨h⟩, pathname := ⟨p⟩, query := none,
                     fragment := none } = true := by
  unfold URL.wellFormed
  simp only [Bool.and_eq_true]
  exact ⟨⟨⟨hh, hp⟩, by decide⟩, by decide⟩

theorem endpoint_of_record (h p : String) (hh : isHost h = true) (hp : isPathL p.data = true)
    (text : String)
    (hparse : URL.parse text = URL.checked
      { scheme := .https, host := ⟨h.data⟩, pathname := ⟨p.data⟩, query := none,
        fragment := none }) :
    getDeepSeekChatCompletionsEndpoint plainPlatform text
      = some ("https://" ++ h ++
          (if endsWith p "/chat/completions" then p else ⟨newPathL p.data⟩)) := by
  have hwf := wellFormed_plain h.data p.data hh hp
  rw [checked_of_wellFormed _ hwf] at hparse
  unfold getDeepSeekChatCompletionsEndpoint
  show (URL.parse text).map (endpointOfURL plainPlatform) = _
  rw [hparse]
  simp only [Option.map_some', Option.some.injEq]
  by_cases hends : endsWith p "/chat/completions" = true
  · simp [endpointOfURL, plainPlatform, hends, URL.toString, Scheme.prefixText]
  · simp only [Bool.not_eq_true] at hends
    rw [endpointOfURL_plain_new _ hends]
    simp [hends, URL.toString, Scheme.prefixText]

theorem endpoint_plain (h p : String) (hh : isHost h = true) (hp : isPathL p.data = true) :
    getDeepSeekChatCompletionsEndpoint plainPlatform ("https://" ++ h ++ p)
      = some ("https://" ++ h ++
          (if endsWith p "/chat/completions" then p else ⟨newPathL p.data⟩)) := by
  apply endpoint_of_record h p hh hp
  have hparse := parse_mk .https h.data p.data none none hh hp (by decide)
  have htext : ("https://" ++ h ++ p : String)
      = ⟨Scheme.https.prefixText.data ++ h.data ++ p.data ++ markedL '?' none ++ markedL '#' none⟩ := by
    apply String.ext
    simp [markedL, Scheme.prefixText]
  rw [htext, hparse]
  rfl

theorem endpoint_bare (h : String) (hh : isHost h = true) :
    getDeepSeekChatCompletionsEndpoint plainPlatform ("https://" ++ h)
      = some ("https://" ++ h ++ "/v1/chat/completions") := by
  have hrec := endpoint_of_record h "/" hh (by decide) ("https://" ++ h) (by
    have hparse := parse_bare .https h.data hh
    have htext : ("https://" ++ h : String) = ⟨Scheme.https.prefixText.data ++ h.data⟩ := by
      apply String.ext
      simp [Scheme.prefixText]
    rw [htext, hparse])
  rw [hrec]
  have h1 : endsWith "/" "/chat/completions" = false := by decide
  have h2 : newPathL ("/" : String).data = "/v1/chat/completions".data := by decide
  simp only [h1, h2, Bool.false_eq_true, if_false]

/-! ## The endpoint resolver: claims C1 and C2 -/

/-- C1, against the claim as stated: for the host `EXAMPLE.com` the base URL
`https://EXAMPLE.com` resolves to `https://example.com/v1/chat/completions` (the URL
parser lower-cases the host), which is not `https://EXAMPLE.com/v1/chat/completions`. -/
theorem endpoint_upper_case_host_counterexample :
    getDeepSeekChatCompletionsEndpoint plainPlatform ("https://" ++ "EXAMPLE.com")
        = some "https://example.com/v1/chat/completions"
    ∧ getDeepSeekChatCompletionsEndpoint plainPlatform ("https://" ++ "EXAMPLE.com")
        ≠ some ("https://" ++ "EXAMPLE.com" ++ "/v1/chat/completions") := by
  decide

/-- C1 as amended: for every host `h` in serialised form (dot-separated non-empty labels
of lower-case letters, digits and hyphens, none a punycode label, the last not a number),
the five base URLs `https://h`, `https://h/`, `https://h/v1`,
`https://h/v1/chat/completions` and `https://h//v1//` all resolve to
`https://h/v1/chat/completions`. -/
theorem endpoint_five_forms (h : String) (hh : isHost h = true) :
    getDeepSeekChatCompletionsEndpoint plainPlatform ("https://" ++ h)
        = some ("https://" ++ h ++ "/v1/chat/completions")
    ∧ getDeepSeekChatCompletionsEndpoint plainPlatform ("https://" ++ h ++ "/")
        = some ("https://" ++ h ++ "/v1/chat/completions")
    ∧ getDeepSeekChatCompletionsEndpoint plainPlatform ("https://" ++ h ++ "/v1")
        = some ("https://" ++ h ++ "/v1/chat/completions")
    ∧ getDeepSeekChatCompletionsEndpoint plainPlatform
          ("https://" ++ h ++ "/v1/chat/completions")
        = some ("https://" ++ h ++ "/v1/chat/completions")
    ∧ getDeepSeekChatCompletionsEndpoint plainPlatform ("https://" ++ h ++ "//v1//")
        = some ("https://" ++ h ++ "/v1/chat/completions") := by
  refine ⟨endpoint_bare h hh, ?_, ?_, ?_, ?_⟩
  · rw [endpoint_plain h "/" hh (by decide)]
    have h1 : endsWith "/" "/chat/completions" = false := by decide
    have h2 : newPathL ("/" : String).data = "/v1/chat/completions".data := by decide
    simp only [h1, h2, Bool.false_eq_true, if_false]
  · rw [endpoint_plain h "/v1" hh (by decide)]
    have h1 : endsWith "/v1" "/chat/completions" = false := by decide
    have h2 : newPathL ("/v1" : String).data = "/v1/chat/completions".data := by decide
    simp only [h1, h2, Bool.false_eq_true, if_false]
  · rw [endpoint_plain h "/v1/chat/completions" hh (by decide)]
    have h1 : endsWith "/v1/chat/completions" "/chat/completions" = true := by decide
    simp only [h1, if_true]
  · rw [endpoint_plain h "//v1//" hh (by decide)]
    have h1 : endsWith "//v1//" "/chat/completions" = false := by decide
    have h2 : newPathL ("//v1//" : String).data = "/v1/chat/completions".data := by decide
    simp only [h1, h2, Bool.false_eq_true, if_false]

/-- Witness for the amended C1 at the host `h` of the specification. -/
theorem endpoint_five_forms_witness :
    isHost "h" = true
    ∧ getDeepSeekChatCompletionsEndpoint plainPlatform "https://h"
        = some "https://h/v1/chat/completions"
    ∧ getDeepSeekChatCompletionsEndpoint plainPlatform "https://h/"
        = some "https://h/v1/chat/completions"
    ∧ getDeepSeekChatCompletionsEndpoint plainPlatform "https://h/v1"
        = some "https://h/v1/chat/completions"
    ∧ getDeepSeekChatCompletionsEndpoint plainPlatform "https://h/v1/chat/completions"
        = some "https://h/v1/chat/completions"
    ∧ getDeepSeekChatCompletionsEndpoint plainPlatform "https://h//v1//"
        = some "https://h/v1/chat/completions" :=
  ⟨by decide, endpoint_five_forms "h" (by decide)⟩

/-- C2: the resolver is idempotent. On every URL platform that obeys the two laws of
`UrlPlatform.Lawful`, for every base URL `u` that parses as a URL, resolving `u` yields an
endpoint `r`, and resolving `r` again yields `r`: applying the resolver twice equals
applying it once. -/
theorem endpoint_idempotent (P : UrlPlatform) (hP : P.Lawful) (u : String)
    (hu : (P.parse u).isSome = true) :
    ∃ r, getDeepSeekChatCompletionsEndpoint P u = some r
      ∧ getDeepSeekChatCompletionsEndpoint P r = some r
      ∧ (getDeepSeekChatCompletionsEndpoint P u).bind (getDeepSeekChatCompletionsEndpoint P)
          = getDeepSeekChatCompletionsEndpoint P u := by
  obtain ⟨v, hv⟩ := Option.isSome_iff_exists.1 hu
  have hfix := endpointOfURL_fixed P hP v
  have hres : getDeepSeekChatCompletionsEndpoint P u = some (endpointOfURL P v) := by
    simp [getDeepSeekChatCompletionsEndpoint, hv]
  refine ⟨endpointOfURL P v, hres, hfix, ?_⟩
  rw [hres]
  exact hfix

/-- Witness for C2 on the concrete platform, at the default base URL of the source. -/
theorem endpoint_idempotent_witness :
    plainPlatform.Lawful
    ∧ (plainPlatform.parse "https://api.deepseek.com/v1").isSome = true
    ∧ ∃ r, getDeepSeekChatCompletionsEndpoint plainPlatform "https://api.deepseek.com/v1"
          = some r
      ∧ getDeepSeekChatCompletionsEndpoint plainPlatform r = some r
      ∧ (getDeepSeekChatCompletionsEndpoint plainPlatform "https://api.deepseek.com/v1").bind
          (getDeepSeekChatCompletionsEndpoint plainPlatform)
          = getDeepSeekChatCompletionsEndpoint plainPlatform "https://api.deepseek.com/v1" :=
  ⟨plainPlatform_lawful, by decide,
   endpoint_idempotent plainPlatform plainPlatform_lawful "https://api.deepseek.com/v1"
     (by decide)⟩

/-- A base URL that is the full endpoint followed by a slash is not taken as it is,
although the comment at `server.js` 72 says that a full endpoint is used directly: its
path does not end in `/chat/completions`, so the path is rebuilt and the endpoint
segments are appended once more. The result is again a fixed point of the resolver. -/
theorem endpoint_full_path_with_trailing_slash :
    getDeepSeekChatCompletionsEndpoint plainPlatform "https://h/v1/chat/completions/"
        = some "https://h/v1/chat/completions/v1/chat/completions"
    ∧ getDeepSeekChatCompletionsEndpoint plainPlatform
          "https://h/v1/chat/completions/v1/chat/completions"
        = some "https://h/v1/chat/completions/v1/chat/completions" := by
  decide

/-! ## Lemmas on property lists -/

theorem lookup_setProp_self {α : Type} (o : List (String × α)) (k : String) (v : α) :
    (setProp o k v).lookup k = some v := by
  induction o with
  | nil => simp [setProp]
  | cons e rest ih =>
    obtain ⟨k1, v1⟩ := e
    by_cases he : k1 = k
    · simp [setProp, he]
    · have hk : (k == k1) = false := by
        simp only [beq_eq_false_iff_ne, ne_eq]
        exact fun h2 => he h2.symm
      simp [setProp, he, List.lookup_cons, hk, ih]

theorem lookup_setProp_ne {α : Type} (o : List (String × α)) (k j : String) (v : α)
    (hne : j ≠ k) : (setProp o k v).lookup j = o.lookup j := by
  have hj : (j == k) = false := by simpa using hne
  induction o with
  | nil => simp [setProp, List.lookup_cons, hj]
  | cons e rest ih =>
    obtain ⟨k1, v1⟩ := e
    by_cases he : k1 = k
    · subst he
      simp [setProp, List.lookup_cons, hj]
    · simp [setProp, he, List.lookup_cons, ih]

theorem mem_keys_setProp {α : Type} (o : List (String × α)) (k j : String) (v : α)
    (hj : j ∈ (setProp o k v).map Prod.fst) : j ∈ o.map Prod.fst ∨ j = k := by
  induction o with
  | nil => right; simpa [setProp] using hj
  | cons e rest ih =>
    obtain ⟨k1, v1⟩ := e
    by_cases he : k1 = k
    · subst he
      left
      simpa [setProp] using hj
    · simp only [setProp, beq_iff_eq, he, if_false, List.map_cons, List.mem_cons] at hj ⊢
      rcases hj with h | h
      · exact Or.inl (Or.inl h)
      · rcases ih h with h2 | h2
        · exact Or.inl (Or.inr h2)
        · exact Or.inr h2

theorem keys_setProp {α : Type} (o : List (String × α)) (k : String) (v : α)
    (h : (o.map Prod.fst).Nodup) : ((setProp o k v).map Prod.fst).Nodup := by
  induction o with
  | nil => simp [setProp]
  | cons e rest ih =>
    obtain ⟨k1, v1⟩ := e
    simp only [List.map_cons, List.nodup_cons] at h
    by_cases he : k1 = k
    · subst he
      simpa [setProp] using h
    · simp only [setProp, beq_iff_eq, he, if_false, List.map_cons, List.nodup_cons]
      refine ⟨?_, ih h.2⟩
      intro hmem
      rcases mem_keys_setProp rest k k1 v hmem with h2 | h2
      · exact h.1 h2
      · exact he h2

theorem lookup_eq_none_of_not_mem_keys {α : Type} (o : List (String × α)) (k : String)
    (h : k ∉ o.map Prod.fst) : o.lookup k = none := by
  induction o with
  | nil => rfl
  | cons e rest ih =>
    obtain ⟨k1, v1⟩ := e
    simp only [List.map_cons, List.mem_cons, not_or] at h
    have hk : (k == k1) = false := by simpa using h.1
    simp only [List.lookup, hk]
    exact ih h.2

theorem lookup_spread {α : Type} (a b : List (String × α)) (k : String)
    (hb : (b.map Prod.fst).Nodup) :
    (spread a b).lookup k = (match b.lookup k with
                             | some v => some v
                             | none => a.lookup k) := by
  unfold spread
  induction b generalizing a with
  | nil => rfl
  | cons e rest ih =>
    obtain ⟨k1, v1⟩ := e
    simp only [List.map_cons, List.nodup_cons] at hb
    simp only [List.foldl_cons]
    rw [ih _ hb.2]
    by_cases hk : k = k1
    · subst hk
      rw [lookup_eq_none_of_not_mem_keys rest k hb.1, lookup_setProp_self]
      simp [List.lookup]
    · have hbeq : (k == k1) = false := by simpa using hk
      rw [lookup_setProp_ne _ _ _ _ hk]
      simp [List.lookup, hbeq]

theorem keys_parseDotEnvLine (env : Env) (rawLine : List Char)
    (h : (env.map Prod.fst).Nodup) : ((parseDotEnvLine env rawLine).map Prod.fst).Nodup := by
  unfold parseDotEnvLine
  simp only
  split
  · exact h
  · split
    · exact h
    · split
      · exact h
      · exact keys_setProp _ _ _ h

theorem keys_parseDotEnv (text : Option String) : ((parseDotEnv text).map Prod.fst).Nodup := by
  unfold parseDotEnv
  split
  · simp
  · split
    · simp
    · rename_i t _
      have : ∀ (lines : List (List Char)) (env : Env), (env.map Prod.fst).Nodup →
          ((lines.foldl parseDotEnvLine env).map Prod.fst).Nodup := by
        intro lines
        induction lines with
        | nil => intro env h; exact h
        | cons l ls ih => intro env h; exact ih _ (keys_parseDotEnvLine env l h)
      exact this _ [] (by simp)

theorem lookup_merged (processEnv : Env) (envFile : Option String) (k v : String)
    (h : (parseDotEnv envFile).lookup k = some v) :
    (spread (spread [] processEnv) (parseDotEnv envFile)).lookup k = some v := by
  rw [lookup_spread _ _ _ (keys_parseDotEnv envFile), h]

/-! ## Configuration precedence: claim C10 -/

/-- C10, against the claim as stated: with `DEEPSEEK_MODEL` defined as `env-model` in the
process environment and as `file-model` in the `.env` text, `loadConfig` returns the
model `file-model`, not the environment's value. -/
theorem loadConfig_env_precedence_counterexample :
    List.lookup "DEEPSEEK_MODEL" [("DEEPSEEK_MODEL", "env-model")] = some "env-model"
    ∧ (parseDotEnv (some "DEEPSEEK_MODEL=file-model")).lookup "DEEPSEEK_MODEL"
        = some "file-model"
    ∧ (loadConfig [("DEEPSEEK_MODEL", "env-model")] (some "DEEPSEEK_MODEL=file-model")).model
        = "file-model"
    ∧ (loadConfig [("DEEPSEEK_MODEL", "env-model")] (some "DEEPSEEK_MODEL=file-model")).model
        ≠ "env-model" := by
  decide

/-- C10 as amended: whatever the process environment holds, a configuration key that the
`.env` text defines takes its value from the file: `apiKey` is the file's value, and `url`
and `model` are the file's value, or the built-in default when that value is empty. -/
theorem loadConfig_file_precedence (processEnv : Env) (envFile : Option String) :
    (∀ v, (parseDotEnv envFile).lookup "DEEPSEEK_API_KEY" = some v →
        (loadConfig processEnv envFile).apiKey = v)
    ∧ (∀ v, (parseDotEnv envFile).lookup "DEEPSEEK_URL" = some v →
        (loadConfig processEnv envFile).url
          = if v = "" then "https://api.deepseek.com/v1" else v)
    ∧ (∀ v, (parseDotEnv envFile).lookup "DEEPSEEK_MODEL" = some v →
        (loadConfig processEnv envFile).model = if v = "" then "deepseek-chat" else v) := by
  refine ⟨?_, ?_, ?_⟩
  · intro v h
    simp only [loadConfig, lookup_merged processEnv envFile _ v h, orString]
    split <;> simp_all
  · intro v h
    simp only [loadConfig, lookup_merged processEnv envFile _ v h, orString]
  · intro v h
    simp only [loadConfig, lookup_merged processEnv envFile _ v h, orString]

/-- Witness for the amended C10: the file's model wins over the environment's. -/
theorem loadConfig_file_precedence_witness :
    (parseDotEnv (some "DEEPSEEK_MODEL=file-model")).lookup "DEEPSEEK_MODEL" = some "file-model"
    ∧ (loadConfig [("DEEPSEEK_MODEL", "env-model")] (some "DEEPSEEK_MODEL=file-model")).model
        = (if "file-model" = "" then "deepseek-chat" else "file-model") :=
  ⟨by decide,
   (loadConfig_file_precedence [("DEEPSEEK_MODEL", "env-model")]
      (some "DEEPSEEK_MODEL=file-model")).2.2 "file-model" (by decide)⟩

/-! ## Lemmas on the handlers -/

theorem validMessages_none (messages : Option Json)
    (h : messages = none ∨ (∀ items, messages ≠ some (.arr items)) ∨ messages = some (.arr [])) :
    validMessages messages = none := by
  rcases h with h | h | h
  · subst h; rfl
  · unfold validMessages
    split
    · rename_i m ms
      exact absurd rfl (h (m :: ms))
    · rfl
  · subst h; rfl

theorem validMessages_eq (messages : Option Json) (m : Json)
    (h : validMessages messages = some m) : messages = some m := by
  unfold validMessages at h
  split at h
  · simpa using h
  · simp at h

theorem demo_accepts_server (stream : Bool) :
    Accepts plainPlatform (loadConfig demoEnv none) (demoPayload stream) demoMessages
      demoEndpoint :=
  ⟨by decide, rfl, rfl, by decide⟩

theorem demo_accepts_function (stream : Bool) :
    Accepts plainPlatform (envConfig demoEnv) (demoPayload stream) demoMessages
      demoEndpoint :=
  ⟨by decide, rfl, rfl, by decide⟩

/-! ## Rejections before any upstream call: claims C8 and C9 -/

/-- C8: a POST chat request, whatever its `stream` field, is answered with status 400, a
JSON body holding one `error` text, and no upstream call, when the API key is missing
(first and third part) and when the key is present and `messages` is missing, not an
array or an empty array, with the error `messages must be a non-empty array` (second and
fourth part); for `server.js` and for `api/chat.js` alike, on every URL platform. -/
theorem chat_rejects_without_upstream_call (P : UrlPlatform) (processEnv : Env)
    (envFile : Option String) (body : Except JsError Json) (payload : Json)
    (fetch : Transport) :
    ((loadConfig processEnv envFile).apiKey = "" →
      handleApiChat P processEnv envFile body fetch
        = ⟨.responded
            { status := 400
              headers := [("Content-Type", "application/json; charset=utf-8"), ("Cache-Control", "no-store")]
              writes := [.json (.obj [("error", .str
                "Missing DEEPSEEK_API_KEY. Create .env next to server.js (see .env.example).")])] }, []⟩)
    ∧ ((loadConfig processEnv envFile).apiKey ≠ "" →
        (prop (some payload) "messages" = none
          ∨ (∀ items, prop (some payload) "messages" ≠ some (.arr items))
          ∨ prop (some payload) "messages" = some (.arr [])) →
        handleApiChat P processEnv envFile (.ok payload) fetch
          = ⟨.responded
              { status := 400
                headers := [("Content-Type", "application/json; charset=utf-8"), ("Cache-Control", "no-store")]
                writes := [.json (.obj [("error", .str "messages must be a non-empty array")])] }, []⟩)
    ∧ ((envConfig processEnv).apiKey = "" →
      apiChat P "POST" processEnv body fetch
        = ⟨.responded
            { status := 400
              headers := [("Content-Type", "application/json; charset=utf-8")]
              writes := [.json (.obj [("error", .str
                "Missing DEEPSEEK_API_KEY. Set it in Vercel Project Settings → Environment Variables.")])] }, []⟩)
    ∧ ((envConfig processEnv).apiKey ≠ "" →
        (prop (some payload) "messages" = none
          ∨ (∀ items, prop (some payload) "messages" ≠ some (.arr items))
          ∨ prop (some payload) "messages" = some (.arr [])) →
        apiChat P "POST" processEnv (.ok payload) fetch
          = ⟨.responded
              { status := 400
                headers := [("Content-Type", "application/json; charset=utf-8")]
                writes := [.json (.obj [("error", .str "messages must be a non-empty array")])] }, []⟩) := by
  refine ⟨?_, ?_, ?_, ?_⟩
  · intro hkey
    simp [handleApiChat, json, hkey]
  · intro hkey hbad
    simp [handleApiChat, json, hkey, validMessages_none _ hbad]
  · intro hkey
    simp [apiChat, errorReply, hkey]
  · intro hkey hbad
    simp [apiChat, errorReply, hkey, validMessages_none _ hbad]

/-- Witness for C8: to a streaming request whose payload has no `messages`, both handlers
answer 400 without any key, and 400 with the `messages` error when a key is set; the
transport is never called. -/
theorem chat_rejects_without_upstream_call_witness :
    handleApiChat plainPlatform [] none (.ok (.obj [("stream", .bool true)]))
        (fun _ => .rejected ⟨"Error", "called"⟩)
        = ⟨.responded
            { status := 400
              headers := [("Content-Type", "application/json; charset=utf-8"), ("Cache-Control", "no-store")]
              writes := [.json (.obj [("error", .str
                "Missing DEEPSEEK_API_KEY. Create .env next to server.js (see .env.example).")])] }, []⟩
    ∧ handleApiChat plainPlatform [("DEEPSEEK_API_KEY", "k")] none
        (.ok (.obj [("stream", .bool true)])) (fun _ => .rejected ⟨"Error", "called"⟩)
        = ⟨.responded
            { status := 400
              headers := [("Content-Type", "application/json; charset=utf-8"), ("Cache-Control", "no-store")]
              writes := [.json (.obj [("error", .str "messages must be a non-empty array")])] }, []⟩
    ∧ apiChat plainPlatform "POST" [] (.ok (.obj [("stream", .bool true)]))
        (fun _ => .rejected ⟨"Error", "called"⟩)
        = ⟨.responded
            { status := 400
              headers := [("Content-Type", "application/json; charset=utf-8")]
              writes := [.json (.obj [("error", .str
                "Missing DEEPSEEK_API_KEY. Set it in Vercel Project Settings → Environment Variables.")])] }, []⟩
    ∧ apiChat plainPlatform "POST" [("DEEPSEEK_API_KEY", "k")]
        (.ok (.obj [("stream", .bool true)])) (fun _ => .rejected ⟨"Error", "called"⟩)
        = ⟨.responded
            { status := 400
              headers := [("Content-Type", "application/json; charset=utf-8")]
              writes := [.json (.obj [("error", .str "messages must be a non-empty array")])] }, []⟩ :=
  ⟨(chat_rejects_without_upstream_call plainPlatform [] none
      (.ok (.obj [("stream", .bool true)])) (.obj [("stream", .bool true)])
      (fun _ => .rejected ⟨"Error", "called"⟩)).1 (by decide),
   (chat_rejects_without_upstream_call plainPlatform [("DEEPSEEK_API_KEY", "k")] none
      (.ok (.obj [("stream", .bool true)])) (.obj [("stream", .bool true)])
      (fun _ => .rejected ⟨"Error", "called"⟩)).2.1 (by decide) (Or.inl (by rfl)),
   (chat_rejects_without_upstream_call plainPlatform [] none
      (.ok (.obj [("stream", .bool true)])) (.obj [("stream", .bool true)])
      (fun _ => .rejected ⟨"Error", "called"⟩)).2.2.1 (by decide),
   (chat_rejects_without_upstream_call plainPlatform [("DEEPSEEK_API_KEY", "k")] none
      (.ok (.obj [("stream", .bool true)])) (.obj [("stream", .bool true)])
      (fun _ => .rejected ⟨"Error", "called"⟩)).2.2.2 (by decide) (Or.inl (by rfl))⟩

/-- C9, the code at the failing input: with a key, a valid payload and the base URL
`not a url`, `new URL` throws inside `getDeepSeekChatCompletionsEndpoint`, which both
handlers call outside every `try`: the exception leaves the handler, no response is
written (so no 400), and no upstream call is made. -/
theorem chat_unparsable_base_url_throws :
    URL.parse "not a url" = none
    ∧ handleApiChat plainPlatform [("DEEPSEEK_API_KEY", "k"), ("DEEPSEEK_URL", "not a url")]
        none
        (.ok (.obj [("messages", .arr [.obj [("role", .str "user"), ("content", .str "hi")]])]))
        (fun _ => .rejected ⟨"Error", "called"⟩)
        = ⟨.threw, []⟩
    ∧ apiChat plainPlatform "POST" [("DEEPSEEK_API_KEY", "k"), ("DEEPSEEK_URL", "not a url")]
        (.ok (.obj [("messages", .arr [.obj [("role", .str "user"), ("content", .str "hi")]])]))
        (fun _ => .rejected ⟨"Error", "called"⟩)
        = ⟨.threw, []⟩ := by
  refine ⟨by decide, ?_, ?_⟩ <;> rfl

/-! ## The upstream request body: claim C5 -/

theorem upstreamBody_fields (payload messages : Json) (defaultModel : String)
    (hm : prop (some payload) "messages" = some messages) :
    ∃ fields, upstreamBody payload messages defaultModel = .obj fields
      ∧ HasSpecifiedFields payload defaultModel fields := by
  refine ⟨_, rfl, ?_⟩
  unfold HasSpecifiedFields
  simp only [hm]
  cases hmodel : prop (some payload) "model" with
  | none =>
    cases ht : prop (some payload) "temperature" with
    | none =>
      cases hx : prop (some payload) "max_tokens" with
      | none => cases hs : truthy (prop (some payload) "stream") <;>
          simp [List.lookup_cons, orElse, truthy, isNumber]
      | some x => cases x <;> cases hs : truthy (prop (some payload) "stream") <;>
          simp [List.lookup_cons, orElse, truthy, isNumber]
    | some t =>
      cases hx : prop (some payload) "max_tokens" with
      | none => cases t <;> cases hs : truthy (prop (some payload) "stream") <;>
          simp [List.lookup_cons, orElse, truthy, isNumber]
      | some x => cases t <;> cases x <;> cases hs : truthy (prop (some payload) "stream") <;>
          simp [List.lookup_cons, orElse, truthy, isNumber]
  | some mo =>
    cases hmt : mo.truthy <;>
    cases ht : prop (some payload) "temperature" with
    | none =>
      cases hx : prop (some payload) "max_tokens" with
      | none => cases hs : truthy (prop (some payload) "stream") <;>
          simp [List.lookup_cons, orElse, truthy, isNumber, hmt]
      | some x => cases x <;> cases hs : truthy (prop (some payload) "stream") <;>
          simp [List.lookup_cons, orElse, truthy, isNumber, hmt]
    | some t =>
      cases hx : prop (some payload) "max_tokens" with
      | none => cases t <;> cases hs : truthy (prop (some payload) "stream") <;>
          simp [List.lookup_cons, orElse, truthy, isNumber, hmt]
      | some x => cases t <;> cases x <;> cases hs : truthy (prop (some payload) "stream") <;>
          simp [List.lookup_cons, orElse, truthy, isNumber, hmt]

theorem handleApiChat_calls (P : UrlPlatform) (processEnv : Env) (envFile : Option String)
    (payload messages : Json) (endpoint : String) (fetch : Transport)
    (h : Accepts P (loadConfig processEnv envFile) payload messages endpoint) :
    (handleApiChat P processEnv envFile (.ok payload) fetch).calls
      = [upstreamCall endpoint (loadConfig processEnv envFile).apiKey
          (upstreamBody payload messages (loadConfig processEnv envFile).model)] := by
  obtain ⟨hkey, hmsgs, hmodel, hurl⟩ := h
  simp only [handleApiChat, hkey, if_false, hmsgs, hmodel, hurl, Bool.not_true,
    Bool.false_eq_true]
  cases fetch _ with
  | rejected e => rfl
  | response r =>
    simp only
    repeat' split
    all_goals rfl

theorem apiChat_calls (P : UrlPlatform) (processEnv : Env)
    (payload messages : Json) (endpoint : String) (fetch : Transport)
    (h : Accepts P (envConfig processEnv) payload messages endpoint) :
    (apiChat P "POST" processEnv (.ok payload) fetch).calls
      = [upstreamCall endpoint (envConfig processEnv).apiKey
          (upstreamBody payload messages (envConfig processEnv).model)] := by
  obtain ⟨hkey, hmsgs, hmodel, hurl⟩ := h
  simp only [apiChat, ne_eq, not_true_eq_false, hkey, if_false, hmsgs, hmodel, hurl,
    Bool.not_true, Bool.false_eq_true]
  cases fetch _ with
  | rejected e => rfl
  | response r =>
    simp only
    repeat' split
    all_goals rfl

/-- C5: for every payload that passes validation (with a key and a base URL that
resolves to `endpoint`), each handler issues exactly one `fetch`, whatever the transport
answers: a POST to `endpoint` with the JSON content type and the bearer key, whose body
(the value handed to `JSON.stringify`) is an object with exactly the specified fields:
`model` (the payload's, or the default model when that is falsy), `messages` (the
payload's, unchanged), `temperature` (the payload's when it is a number, else 0.6),
`max_tokens` if and only if the payload's is a number (then equal to it), `stream` if and
only if the payload's is truthy (then `true`); the body never holds `stream: false`. -/
theorem upstream_body_has_specified_fields (P : UrlPlatform) (processEnv : Env)
    (envFile : Option String) (payload messages : Json) (endpoint : String)
    (fetch : Transport) :
    (Accepts P (loadConfig processEnv envFile) payload messages endpoint →
      ∃ fields, (handleApiChat P processEnv envFile (.ok payload) fetch).calls
          = [{ url := endpoint
               method := "POST"
               headers := [("Content-Type", "application/json"),
                           ("Authorization", "Bearer " ++ (loadConfig processEnv envFile).apiKey)]
               body := .obj fields }]
        ∧ HasSpecifiedFields payload (loadConfig processEnv envFile).model fields)
    ∧ (Accepts P (envConfig processEnv) payload messages endpoint →
      ∃ fields, (apiChat P "POST" processEnv (.ok payload) fetch).calls
          = [{ url := endpoint
               method := "POST"
               headers := [("Content-Type", "application/json"),
                           ("Authorization", "Bearer " ++ (envConfig processEnv).apiKey)]
               body := .obj fields }]
        ∧ HasSpecifiedFields payload (envConfig processEnv).model fields) := by
  constructor
  · intro h
    obtain ⟨fields, hb, hf⟩ := upstreamBody_fields payload messages
      (loadConfig processEnv envFile).model (validMessages_eq _ _ h.2.1)
    exact ⟨fields, by rw [handleApiChat_calls _ _ _ _ _ _ _ h, hb]; rfl, hf⟩
  · intro h
    obtain ⟨fields, hb, hf⟩ := upstreamBody_fields payload messages
      (envConfig processEnv).model (validMessages_eq _ _ h.2.1)
    exact ⟨fields, by rw [apiChat_calls _ _ _ _ _ _ h, hb]; rfl, hf⟩

/-- Witness for C5: the sample buffered request reaches the transport once, and the body
of the call is the object `{model: "deepseek-chat", messages, temperature: 0.2,
max_tokens: 120}`: the payload's `stream: false` is left out. -/
theorem upstream_body_has_specified_fields_witness :
    (handleApiChat plainPlatform demoEnv none (.ok (demoPayload false))
        (fun _ => .rejected ⟨"Error", "down"⟩)).calls
      = [{ url := "https://api.deepseek.com/v1/chat/completions"
           method := "POST"
           headers := [("Content-Type", "application/json"), ("Authorization", "Bearer k")]
           body := .obj [("model", .str "deepseek-chat"),
                         ("messages", .arr [.obj [("role", .str "user"),
                                                  ("content", .str "hi")]]),
                         ("temperature", .num "0.2"), ("max_tokens", .num "120")] }]
    ∧ ∃ fields, (handleApiChat plainPlatform demoEnv none (.ok (demoPayload false))
          (fun _ => .rejected ⟨"Error", "down"⟩)).calls
          = [{ url := demoEndpoint
               method := "POST"
               headers := [("Content-Type", "application/json"),
                           ("Authorization", "Bearer " ++ (loadConfig demoEnv none).apiKey)]
               body := .obj fields }]
        ∧ HasSpecifiedFields (demoPayload false) (loadConfig demoEnv none).model fields :=
  ⟨rfl,
   (upstream_body_has_specified_fields plainPlatform demoEnv none (demoPayload false)
      demoMessages demoEndpoint (fun _ => .rejected ⟨"Error", "down"⟩)).1
      (demo_accepts_server false)⟩

/-! ## Upstream failures: claim C7 -/

/-- C7: when the upstream answers with a non-success status `s` and body `j`, in buffered
and in streaming mode alike, each handler responds with status 502 and the JSON body
`{error: msg, raw: j}`, where `msg` is `j.error.message` when that holds a truthy value,
else `j.message` when that holds a truthy value, else the text `Upstream HTTP ` followed
by `s`. -/
theorem upstream_failure_is_502 (P : UrlPlatform) (processEnv : Env)
    (envFile : Option String) (payload messages : Json) (endpoint : String)
    (fetch : Transport) (r : UpstreamResponse) :
    (Accepts P (loadConfig processEnv envFile) payload messages endpoint →
      fetch (upstreamCall endpoint (loadConfig processEnv envFile).apiKey
        (upstreamBody payload messages (loadConfig processEnv envFile).model)) = .response r →
      r.ok = false →
      (handleApiChat P processEnv envFile (.ok payload) fetch).outcome
        = .responded
            { status := 502
              headers := [("Content-Type", "application/json; charset=utf-8"), ("Cache-Control", "no-store")]
              writes := [.json (.obj [("error", upstreamErrorMessage r.json r.status),
                                      ("raw", r.json)])] })
    ∧ (Accepts P (envConfig processEnv) payload messages endpoint →
      fetch (upstreamCall endpoint (envConfig processEnv).apiKey
        (upstreamBody payload messages (envConfig processEnv).model)) = .response r →
      r.ok = false →
      (apiChat P "POST" processEnv (.ok payload) fetch).outcome
        = .responded
            { status := 502
              headers := [("Content-Type", "application/json; charset=utf-8")]
              writes := [.json (.obj [("error", upstreamErrorMessage r.json r.status),
                                      ("raw", r.json)])] })
    ∧ (∀ m, prop (prop (some r.json) "error") "message" = some m → m.truthy = true →
        upstreamErrorMessage r.json r.status = m)
    ∧ (truthy (prop (prop (some r.json) "error") "message") = false →
        ∀ m, prop (some r.json) "message" = some m → m.truthy = true →
          upstreamErrorMessage r.json r.status = m)
    ∧ (truthy (prop (prop (some r.json) "error") "message") = false →
        truthy (prop (some r.json) "message") = false →
        upstreamErrorMessage r.json r.status = .str ("Upstream HTTP " ++ toString r.status)) := by
  refine ⟨?_, ?_, ?_, ?_, ?_⟩
  · rintro ⟨hkey, hmsgs, hmodel, hurl⟩ hfetch hok
    simp [handleApiChat, json, hkey, hmsgs, hmodel, hurl, hfetch, hok]
  · rintro ⟨hkey, hmsgs, hmodel, hurl⟩ hfetch hok
    simp [apiChat, errorReply, hkey, hmsgs, hmodel, hurl, hfetch, hok]
  · intro m hm ht
    simp [upstreamErrorMessage, orElse, hm, ht]
  · intro h1 m hm ht
    unfold upstreamErrorMessage
    cases he : prop (prop (some r.json) "error") "message" with
    | none => simp [orElse, hm, ht]
    | some e =>
      rw [he] at h1
      simp only [truthy] at h1
      simp [orElse, h1, hm, ht]
  · intro h1 h2
    unfold upstreamErrorMessage
    cases he : prop (prop (some r.json) "error") "message" with
    | none =>
      cases hm : prop (some r.json) "message" with
      | none => simp [orElse]
      | some m =>
        rw [hm] at h2
        simp only [truthy] at h2
        simp [orElse, h2]
    | some e =>
      rw [he] at h1
      simp only [truthy] at h1
      cases hm : prop (some r.json) "message" with
      | none => simp [orElse, h1]
      | some m =>
        rw [hm] at h2
        simp only [truthy] at h2
        simp [orElse, h1, h2]

/-- Witness for C7, the example of the specification: an upstream status 500 with body
`{error: {message: "rate limited"}}` gives 502 with `{error: "rate limited", raw: ...}`,
for a buffered request to `server.js` and a streaming request to `api/chat.js`; and a
status 503 with the body `{}` gives the error text `Upstream HTTP 503`. -/
theorem upstream_failure_is_502_witness :
    (handleApiChat plainPlatform demoEnv none (.ok (demoPayload false))
        (fun _ => .response (demoResponse false 500
          (.obj [("error", .obj [("message", .str "rate limited")])]) none [] none))).outcome
      = .responded
          { status := 502
            headers := [("Content-Type", "application/json; charset=utf-8"), ("Cache-Control", "no-store")]
            writes := [.json (.obj [("error", .str "rate limited"),
              ("raw", .obj [("error", .obj [("message", .str "rate limited")])])])] }
    ∧ (apiChat plainPlatform "POST" demoEnv (.ok (demoPayload true))
        (fun _ => .response (demoResponse false 500
          (.obj [("error", .obj [("message", .str "rate limited")])]) none [] none))).outcome
      = .responded
          { status := 502
            headers := [("Content-Type", "application/json; charset=utf-8")]
            writes := [.json (.obj [("error", .str "rate limited"),
              ("raw", .obj [("error", .obj [("message", .str "rate limited")])])])] }
    ∧ (handleApiChat plainPlatform demoEnv none (.ok (demoPayload false))
        (fun _ => .response (demoResponse false 503 (.obj []) none [] none))).outcome
      = .responded
          { status := 502
            headers := [("Content-Type", "application/json; charset=utf-8"), ("Cache-Control", "no-store")]
            writes := [.json (.obj [("error", .str "Upstream HTTP 503"),
                                    ("raw", .obj [])])] } :=
  ⟨(upstream_failure_is_502 plainPlatform demoEnv none (demoPayload false) demoMessages
      demoEndpoint
      (fun _ => .response (demoResponse false 500
        (.obj [("error", .obj [("message", .str "rate limited")])]) none [] none))
      (demoResponse false 500
        (.obj [("error", .obj [("message", .str "rate limited")])]) none [] none)).1
      (demo_accepts_server false) rfl rfl,
   (upstream_failure_is_502 plainPlatform demoEnv none (demoPayload true) demoMessages
      demoEndpoint
      (fun _ => .response (demoResponse false 500
        (.obj [("error", .obj [("message", .str "rate limited")])]) none [] none))
      (demoResponse false 500
        (.obj [("error", .obj [("message", .str "rate limited")])]) none [] none)).2.1
      (demo_accepts_function true) rfl rfl,
   (upstream_failure_is_502 plainPlatform demoEnv none (demoPayload false) demoMessages
      demoEndpoint
      (fun _ => .response (demoResponse false 503 (.obj []) none [] none))
      (demoResponse false 503 (.obj []) none [] none)).1
      (demo_accepts_server false) rfl rfl⟩

/-! ## Buffered replies: claim C6 -/

/-- C6, against the claim as stated, on `server.js` in buffered mode with a success
status. First: for the upstream body `{choices: [{message: {content: false}}]}` the
content is neither absent nor an empty string, and the handler responds 502, not 200.
Second: for `{choices: [{message: {content: {toString: 1}}}]}` the conversion
`String(content)` throws, the exception leaves the handler and no response is written. -/
theorem buffered_reply_counterexample :
    (handleApiChat plainPlatform demoEnv none (.ok (demoPayload false))
        (fun _ => .response (demoResponse true 200
          (.obj [("choices", .arr [.obj [("message", .obj [("content", .bool false)])]])])
          none [] none))).outcome
      = .responded
          { status := 502
            headers := [("Content-Type", "application/json; charset=utf-8"), ("Cache-Control", "no-store")]
            writes := [.json (.obj [("error", .str "Upstream returned no choices[0].message.content"),
              ("raw", .obj [("choices",
                .arr [.obj [("message", .obj [("content", .bool false)])]])])])] }
    ∧ (handleApiChat plainPlatform demoEnv none (.ok (demoPayload false))
        (fun _ => .response (demoResponse true 200
          (.obj [("choices", .arr [.obj [("message",
            .obj [("content", .obj [("toString", .num "1")])])]])])
          none [] none))).outcome
      = .threw := by
  constructor <;> rfl

/-- C6 as amended: in buffered mode, when the upstream answers with a success status and
the JSON body `j`, each handler responds 502 with the error text and `raw = j` when
`j.choices[0].message.content` is absent or falsy (first part; in particular when it is
absent or the empty string, second part), and responds 200 with the body `{content: c}`
when the content is truthy and `String(content)` yields a text, `c` being that text with
its leading and trailing whitespace removed (third part); for a non-empty string the
text is the string itself (fourth part). -/
theorem buffered_reply (P : UrlPlatform) (processEnv : Env) (envFile : Option String)
    (payload messages : Json) (endpoint : String) (fetch : Transport)
    (r : UpstreamResponse) :
    (Accepts P (loadConfig processEnv envFile) payload messages endpoint →
      truthy (prop (some payload) "stream") = false →
      fetch (upstreamCall endpoint (loadConfig processEnv envFile).apiKey
        (upstreamBody payload messages (loadConfig processEnv envFile).model)) = .response r →
      r.ok = true →
      (truthy (choiceContent r.json) = false →
        (handleApiChat P processEnv envFile (.ok payload) fetch).outcome
          = .responded
              { status := 502
                headers := [("Content-Type", "application/json; charset=utf-8"), ("Cache-Control", "no-store")]
                writes := [.json (.obj [("error", .str "Upstream returned no choices[0].message.content"), ("raw", r.json)])] })
      ∧ ((choiceContent r.json = none ∨ choiceContent r.json = some (.str "")) →
        (handleApiChat P processEnv envFile (.ok payload) fetch).outcome
          = .responded
              { status := 502
                headers := [("Content-Type", "application/json; charset=utf-8"), ("Cache-Control", "no-store")]
                writes := [.json (.obj [("error", .str "Upstream returned no choices[0].message.content"), ("raw", r.json)])] })
      ∧ (∀ content text, choiceContent r.json = some content → content.truthy = true →
          jsString content = some text →
        (handleApiChat P processEnv envFile (.ok payload) fetch).outcome
          = .responded
              { status := 200
                headers := [("Content-Type", "application/json; charset=utf-8"), ("Cache-Control", "no-store")]
                writes := [.json (.obj [("content", .str (trim text))])] })
      ∧ (∀ text, choiceContent r.json = some (.str text) → text ≠ "" →
        (handleApiChat P processEnv envFile (.ok payload) fetch).outcome
          = .responded
              { status := 200
                headers := [("Content-Type", "application/json; charset=utf-8"), ("Cache-Control", "no-store")]
                writes := [.json (.obj [("content", .str (trim text))])] }))
    ∧ (Accepts P (envConfig processEnv) payload messages endpoint →
      truthy (prop (some payload) "stream") = false →
      fetch (upstreamCall endpoint (envConfig processEnv).apiKey
        (upstreamBody payload messages (envConfig processEnv).model)) = .response r →
      r.ok = true →
      (truthy (choiceContent r.json) = false →
        (apiChat P "POST" processEnv (.ok payload) fetch).outcome
          = .responded
              { status := 502
                headers := [("Content-Type", "application/json; charset=utf-8")]
                writes := [.json (.obj [("error", .str "Upstream returned no choices[0].message.content"), ("raw", r.json)])] })
      ∧ ((choiceContent r.json = none ∨ choiceContent r.json = some (.str "")) →
        (apiChat P "POST" processEnv (.ok payload) fetch).outcome
          = .responded
              { status := 502
                headers := [("Content-Type", "application/json; charset=utf-8")]
                writes := [.json (.obj [("error", .str "Upstream returned no choices[0].message.content"), ("raw", r.json)])] })
      ∧ (∀ content text, choiceContent r.json = some content → content.truthy = true →
          jsString content = some text →
        (apiChat P "POST" processEnv (.ok payload) fetch).outcome
          = .responded
              { status := 200
                headers := [("Content-Type", "application/json; charset=utf-8"), ("Cache-Control", "no-store")]
                writes := [.json (.obj [("content", .str (trim text))])] })
      ∧ (∀ text, choiceContent r.json = some (.str text) → text ≠ "" →
        (apiChat P "POST" processEnv (.ok payload) fetch).outcome
          = .responded
              { status := 200
                headers := [("Content-Type", "application/json; charset=utf-8"), ("Cache-Control", "no-store")]
                writes := [.json (.obj [("content", .str (trim text))])] })) := by
  have hfalsy : (choiceContent r.json = none ∨ choiceContent r.json = some (.str "")) →
      truthy (choiceContent r.json) = false := by
    rintro (h | h)
    · rw [h]; rfl
    · rw [h]; rfl
  have hstr : ∀ text : String, text ≠ "" → (Json.str text).truthy = true := by
    intro text hne
    simp [Json.truthy, hne]
  refine ⟨?_, ?_⟩
  · rintro ⟨hkey, hmsgs, hmodel, hurl⟩ hstream hfetch hok
    have h502 : truthy (choiceContent r.json) = false →
        (handleApiChat P processEnv envFile (.ok payload) fetch).outcome
          = .responded
              { status := 502
                headers := [("Content-Type", "application/json; charset=utf-8"), ("Cache-Control", "no-store")]
                writes := [.json (.obj [("error", .str "Upstream returned no choices[0].message.content"), ("raw", r.json)])] } := by
      intro hf
      cases hcc : choiceContent r.json with
      | none => simp [handleApiChat, json, hkey, hmsgs, hmodel, hurl, hstream, hfetch, hok, hcc]
      | some c =>
        rw [hcc] at hf
        simp only [truthy] at hf
        simp [handleApiChat, json, hkey, hmsgs, hmodel, hurl, hstream, hfetch, hok, hcc, hf]
    have h200 : ∀ content text, choiceContent r.json = some content → content.truthy = true →
        jsString content = some text →
        (handleApiChat P processEnv envFile (.ok payload) fetch).outcome
          = .responded
              { status := 200
                headers := [("Content-Type", "application/json; charset=utf-8"), ("Cache-Control", "no-store")]
                writes := [.json (.obj [("content", .str (trim text))])] } := by
      intro content text hc ht hs
      simp [handleApiChat, json, hkey, hmsgs, hmodel, hurl, hstream, hfetch, hok, hc, ht, hs]
    exact ⟨h502, fun hc => h502 (hfalsy hc), h200,
      fun text hc hne => h200 (.str text) text hc (hstr text hne) (by simp [jsString])⟩
  · rintro ⟨hkey, hmsgs, hmodel, hurl⟩ hstream hfetch hok
    have h502 : truthy (choiceContent r.json) = false →
        (apiChat P "POST" processEnv (.ok payload) fetch).outcome
          = .responded
              { status := 502
                headers := [("Content-Type", "application/json; charset=utf-8")]
                writes := [.json (.obj [("error", .str "Upstream returned no choices[0].message.content"), ("raw", r.json)])] } := by
      intro hf
      cases hcc : choiceContent r.json with
      | none => simp [apiChat, errorReply, hkey, hmsgs, hmodel, hurl, hstream, hfetch, hok, hcc]
      | some c =>
        rw [hcc] at hf
        simp only [truthy] at hf
        simp [apiChat, errorReply, hkey, hmsgs, hmodel, hurl, hstream, hfetch, hok, hcc, hf]
    have h200 : ∀ content text, choiceContent r.json = some content → content.truthy = true →
        jsString content = some text →
        (apiChat P "POST" processEnv (.ok payload) fetch).outcome
          = .responded
              { status := 200
                headers := [("Content-Type", "application/json; charset=utf-8"), ("Cache-Control", "no-store")]
                writes := [.json (.obj [("content", .str (trim text))])] } := by
      intro content text hc ht hs
      simp [apiChat, hkey, hmsgs, hmodel, hurl, hstream, hfetch, hok, hc, ht, hs]
    exact ⟨h502, fun hc => h502 (hfalsy hc), h200,
      fun text hc hne => h200 (.str text) text hc (hstr text hne) (by simp [jsString])⟩

/-- Witness for the amended C6, the example of the specification: the upstream body
`{choices: [{message: {content: " hi "}}]}` gives 200 with `{content: "hi"}`. -/
theorem buffered_reply_witness :
    (handleApiChat plainPlatform demoEnv none (.ok (demoPayload false))
        (fun _ => .response (demoResponse true 200
          (.obj [("choices", .arr [.obj [("message", .obj [("content", .str " hi ")])]])])
          none [] none))).outcome
      = .responded
          { status := 200
            headers := [("Content-Type", "application/json; charset=utf-8"), ("Cache-Control", "no-store")]
            writes := [.json (.obj [("content", .str "hi")])] } :=
  ((buffered_reply plainPlatform demoEnv none (demoPayload false) demoMessages demoEndpoint
      (fun _ => .response (demoResponse true 200
        (.obj [("choices", .arr [.obj [("message", .obj [("content", .str " hi ")])]])])
        none [] none))
      (demoResponse true 200
        (.obj [("choices", .arr [.obj [("message", .obj [("content", .str " hi ")])]])])
        none [] none)).1
      (demo_accepts_server false) rfl rfl rfl).2.2.2 " hi " rfl (by decide)

/-! ## The event-stream pass-through: claims C3 and C4 -/

theorem wire_bytes (stringify : Json → String) (chunks : List (List UInt8)) :
    wire stringify (chunks.map Write.bytes) = chunks.flatten := by
  unfold wire
  rw [List.map_map]
  have : (Write.toBytes stringify ∘ Write.bytes) = id := by
    funext c
    rfl
  rw [this, List.map_id]

theorem wire_append (stringify : Json → String) (a b : List Write) :
    wire stringify (a ++ b) = wire stringify a ++ wire stringify b := by
  simp [wire]

theorem streamWrites_eventStream (r : UpstreamResponse) (hbody : r.hasBody = true)
    (hct : includes (orString r.contentType "") "text/event-stream" = true) :
    streamWrites r = r.chunks.map Write.bytes
      ++ (match r.failure with
          | none => []
          | some e => [.frame (.obj [("error", .str (errorText e))])]) := by
  simp [streamWrites, hbody, hct]

/-- C3: in streaming mode, when the upstream answers with a success status, a present
body and an event-stream content type, and delivers the chunks `c1, ..., cn` without
error, each handler responds 200 with the event-stream headers and writes exactly the
chunks, one write per chunk in the order received, so that the body on the wire is the
concatenation `c1 ++ ... ++ cn`: nothing is added, dropped, changed or reordered. -/
theorem stream_forwards_chunks (P : UrlPlatform) (processEnv : Env)
    (envFile : Option String) (payload messages : Json) (endpoint : String)
    (fetch : Transport) (r : UpstreamResponse) :
    (Accepts P (loadConfig processEnv envFile) payload messages endpoint →
      truthy (prop (some payload) "stream") = true →
      fetch (upstreamCall endpoint (loadConfig processEnv envFile).apiKey
        (upstreamBody payload messages (loadConfig processEnv envFile).model)) = .response r →
      r.ok = true → r.hasBody = true →
      includes (orString r.contentType "") "text/event-stream" = true →
      r.failure = none →
      (handleApiChat P processEnv envFile (.ok payload) fetch).outcome
        = .responded
            { status := 200
              headers := [("Content-Type", "text/event-stream; charset=utf-8"),
                          ("Cache-Control", "no-store"), ("Connection", "keep-alive"),
                          ("X-Accel-Buffering", "no")]
              writes := r.chunks.map Write.bytes })
    ∧ (Accepts P (envConfig processEnv) payload messages endpoint →
      truthy (prop (some payload) "stream") = true →
      fetch (upstreamCall endpoint (envConfig processEnv).apiKey
        (upstreamBody payload messages (envConfig processEnv).model)) = .response r →
      r.ok = true → r.hasBody = true →
      includes (orString r.contentType "") "text/event-stream" = true →
      r.failure = none →
      (apiChat P "POST" processEnv (.ok payload) fetch).outcome
        = .responded
            { status := 200
              headers := [("Content-Type", "text/event-stream; charset=utf-8"),
                          ("Cache-Control", "no-store"), ("Connection", "keep-alive"),
                          ("X-Accel-Buffering", "no")]
              writes := r.chunks.map Write.bytes })
    ∧ (∀ stringify, wire stringify (r.chunks.map Write.bytes) = r.chunks.flatten) := by
  refine ⟨?_, ?_, fun stringify => wire_bytes stringify r.chunks⟩
  · rintro ⟨hkey, hmsgs, hmodel, hurl⟩ hstream hfetch hok hbody hct hfail
    simp [handleApiChat, eventStreamHeaders, hkey, hmsgs, hmodel, hurl, hstream, hfetch, hok,
      streamWrites_eventStream r hbody hct, hfail]
  · rintro ⟨hkey, hmsgs, hmodel, hurl⟩ hstream hfetch hok hbody hct hfail
    simp [apiChat, eventStreamHeaders, hkey, hmsgs, hmodel, hurl, hstream, hfetch, hok,
      streamWrites_eventStream r hbody hct, hfail]

/-- Witness for C3: two chunks and the upstream's own terminal frame are written as
received, in order. -/
theorem stream_forwards_chunks_witness :
    (handleApiChat plainPlatform demoEnv none (.ok (demoPayload true))
        (fun _ => .response (demoResponse true 200 (.obj []) (some "text/event-stream")
          [utf8 "data: a\n\n", utf8 "data: b\n\n", utf8 "data: [DONE]\n\n"] none))).outcome
      = .responded
          { status := 200
            headers := [("Content-Type", "text/event-stream; charset=utf-8"),
                          ("Cache-Control", "no-store"), ("Connection", "keep-alive"),
                          ("X-Accel-Buffering", "no")]
            writes := [.bytes (utf8 "data: a\n\n"), .bytes (utf8 "data: b\n\n"),
                       .bytes (utf8 "data: [DONE]\n\n")] } :=
  (stream_forwards_chunks plainPlatform demoEnv none (demoPayload true) demoMessages
      demoEndpoint
      (fun _ => .response (demoResponse true 200 (.obj []) (some "text/event-stream")
        [utf8 "data: a\n\n", utf8 "data: b\n\n", utf8 "data: [DONE]\n\n"] none))
      (demoResponse true 200 (.obj []) (some "text/event-stream")
        [utf8 "data: a\n\n", utf8 "data: b\n\n", utf8 "data: [DONE]\n\n"] none)).1
    (demo_accepts_server true) rfl rfl rfl rfl (by decide) rfl

/-- C4, against the claim as stated: after one chunk and an upstream failure with the
message `socket hang up`, the handler of `server.js` writes the chunk and the error frame
and ends the response; the writes are not followed by a `data: [DONE]` frame. -/
theorem stream_error_has_no_done_frame_counterexample :
    (handleApiChat plainPlatform demoEnv none (.ok (demoPayload true))
        (fun _ => .response (demoResponse true 200 (.obj []) (some "text/event-stream")
          [[100]] (some ⟨"Error", "socket hang up"⟩)))).outcome
      = .responded
          { status := 200
            headers := [("Content-Type", "text/event-stream; charset=utf-8"),
                          ("Cache-Control", "no-store"), ("Connection", "keep-alive"),
                          ("X-Accel-Buffering", "no")]
            writes := [.bytes [100], .frame (.obj [("error", .str "socket hang up")])] }
    ∧ ([.bytes [100], .frame (.obj [("error", .str "socket hang up")])] : List Write)
      ≠ [.bytes [100], .frame (.obj [("error", .str "socket hang up")]),
         .text "data: [DONE]\n\n"] := by
  refine ⟨rfl, ?_⟩
  intro h
  simp at h

/-- C4 as amended: in streaming mode with an event-stream upstream body, if the upstream
delivers the chunks `c1, ..., ck` and then fails with an error `e`, each handler responds
with status 200 and writes exactly the chunks in order followed by one frame
`data: {"error": m}` and nothing after it (no `[DONE]` frame), where `m` is the error's
message when that is non-empty; on the wire the body is `c1 ++ ... ++ ck` followed by the
bytes of that frame. -/
theorem stream_error_frame (P : UrlPlatform) (processEnv : Env) (envFile : Option String)
    (payload messages : Json) (endpoint : String) (fetch : Transport) (r : UpstreamResponse)
    (e : JsError) :
    (Accepts P (loadConfig processEnv envFile) payload messages endpoint →
      truthy (prop (some payload) "stream") = true →
      fetch (upstreamCall endpoint (loadConfig processEnv envFile).apiKey
        (upstreamBody payload messages (loadConfig processEnv envFile).model)) = .response r →
      r.ok = true → r.hasBody = true →
      includes (orString r.contentType "") "text/event-stream" = true →
      r.failure = some e →
      (handleApiChat P processEnv envFile (.ok payload) fetch).outcome
        = .responded
            { status := 200
              headers := [("Content-Type", "text/event-stream; charset=utf-8"),
                          ("Cache-Control", "no-store"), ("Connection", "keep-alive"),
                          ("X-Accel-Buffering", "no")]
              writes := r.chunks.map Write.bytes
                ++ [.frame (.obj [("error", .str (errorText e))])] })
    ∧ (Accepts P (envConfig processEnv) payload messages endpoint →
      truthy (prop (some payload) "stream") = true →
      fetch (upstreamCall endpoint (envConfig processEnv).apiKey
        (upstreamBody payload messages (envConfig processEnv).model)) = .response r →
      r.ok = true → r.hasBody = true →
      includes (orString r.contentType "") "text/event-stream" = true →
      r.failure = some e →
      (apiChat P "POST" processEnv (.ok payload) fetch).outcome
        = .responded
            { status := 200
              headers := [("Content-Type", "text/event-stream; charset=utf-8"),
                          ("Cache-Control", "no-store"), ("Connection", "keep-alive"),
                          ("X-Accel-Buffering", "no")]
              writes := r.chunks.map Write.bytes
                ++ [.frame (.obj [("error", .str (errorText e))])] })
    ∧ (e.message ≠ "" → errorText e = e.message)
    ∧ (∀ stringify,
        wire stringify (r.chunks.map Write.bytes
            ++ [.frame (.obj [("error", .str (errorText e))])])
          = r.chunks.flatten
            ++ utf8 ("data: " ++ stringify (.obj [("error", .str (errorText e))]) ++ "\n\n")) := by
  refine ⟨?_, ?_, ?_, ?_⟩
  · rintro ⟨hkey, hmsgs, hmodel, hurl⟩ hstream hfetch hok hbody hct hfail
    simp [handleApiChat, eventStreamHeaders, hkey, hmsgs, hmodel, hurl, hstream, hfetch, hok,
      streamWrites_eventStream r hbody hct, hfail]
  · rintro ⟨hkey, hmsgs, hmodel, hurl⟩ hstream hfetch hok hbody hct hfail
    simp [apiChat, eventStreamHeaders, hkey, hmsgs, hmodel, hurl, hstream, hfetch, hok,
      streamWrites_eventStream r hbody hct, hfail]
  · intro hne
    simp [errorText, hne]
  · intro stringify
    rw [wire_append, wire_bytes]
    simp [wire, Write.toBytes]

/-- Witness for the amended C4: one chunk, then the failure `socket hang up`. -/
theorem stream_error_frame_witness :
    (handleApiChat plainPlatform demoEnv none (.ok (demoPayload true))
        (fun _ => .response (demoResponse true 200 (.obj []) (some "text/event-stream")
          [[100]] (some ⟨"Error", "socket hang up"⟩)))).outcome
      = .responded
          { status := 200
            headers := [("Content-Type", "text/event-stream; charset=utf-8"),
                          ("Cache-Control", "no-store"), ("Connection", "keep-alive"),
                          ("X-Accel-Buffering", "no")]
            writes := [Write.bytes [100]]
              ++ [.frame (.obj [("error", .str (errorText ⟨"Error", "socket hang up"⟩))])] } :=
  (stream_error_frame plainPlatform demoEnv none (demoPayload true) demoMessages demoEndpoint
      (fun _ => .response (demoResponse true 200 (.obj []) (some "text/event-stream")
        [[100]] (some ⟨"Error", "socket hang up"⟩)))
      (demoResponse true 200 (.obj []) (some "text/event-stream")
        [[100]] (some ⟨"Error", "socket hang up"⟩))
      ⟨"Error", "socket hang up"⟩).1
    (demo_accepts_server true) rfl rfl rfl rfl (by decide) rfl

end PinyinChat
